import Mathlib

/-!
# CascadeScenarioController: the stage sequencer

A shallow embedding of `main.go` and `webhook/webhook.go`.

* Go strings are Lean strings; `strings.Split` is embedded on the character
  lists of its arguments.
* A Go `map[string]string` is the list of its key/value entries in the order
  in which the single `range` over it yields them.
* The Kubernetes API server and the status endpoint are inputs of the run:
  the answers to `Jobs.Create`, `Jobs.Get`, `Jobs.Delete` and `http.Post`.
* The effects of a run are a chronological trace of API calls and the way the
  process ends: `os.Exit` with a code (`Fatal` of the logger exits with code
  1), or an unrecovered run-time panic (an index out of range, a method call
  on a nil error). Log lines are not part of the trace.
* The polling loop of `main` has no bound. A run is given the finite list of
  answers to its status queries; when that list is used up while a stage is
  still being polled, the run has no outcome yet and its trace is the prefix
  of the behaviour up to that point.
-/

namespace CascadeScenarioController

/-! ## Library functions used by the source -/

/-- The pieces of `strings.Split` for a non-empty separator. The counter is the
number of characters of an already matched separator that are still to be
dropped. -/
def splitGo (sep : List Char) : Nat → List Char → List (List Char)
  | _, [] => [[]]
  | k + 1, _ :: cs => splitGo sep k cs
  | 0, c :: cs =>
    if sep.isPrefixOf (c :: cs) then [] :: splitGo sep (sep.length - 1) cs
    else
      match splitGo sep 0 cs with
      | [] => [[c]]
      | p :: ps => (c :: p) :: ps

/-- Go `strings.Split(s, sep)`: the substrings of `s` between the
non-overlapping occurrences of `sep`, scanning from the left; an empty
separator splits after each character. -/
def Split (s sep : String) : List String :=
  if sep.data = [] then s.data.map (fun c => String.mk [c])
  else (splitGo sep.data 0 s.data).map String.mk

/-- Go `strconv.Itoa` on a non-negative integer. -/
def Itoa (n : Nat) : String := Nat.repr n

/-- Go map indexing `m[key]`: the value stored under `key`, the empty string
when the key is absent. -/
def mapIndex (m : List (String × String)) (key : String) : String :=
  match m.find? (fun kv => kv.1 == key) with
  | some kv => kv.2
  | none => ""

/-! ## Data model -/

/-- `JobStatus` of `main.go`. -/
inductive JobStatus
  | notStarted
  | Running
  | Succeeded
  | Failed
  deriving DecidableEq, Repr

/-- `s3PackagePath` of `main.go`. -/
structure s3PackagePath where
  stageNum : Nat
  path : String
  isLastStage : Bool
  deriving DecidableEq, Repr

/-- `v1.EnvVar`, the two fields the source sets. -/
structure EnvVar where
  Name : String
  Value : String
  deriving DecidableEq, Repr

/-- `v1.Container`, with the field the source overwrites. -/
structure Container where
  Name : String
  Env : List EnvVar
  deriving DecidableEq, Repr

/-- `v1.PodSpec`, the container list. -/
structure PodSpec where
  Containers : List Container
  deriving DecidableEq, Repr

/-- `v1.PodTemplateSpec`. -/
structure PodTemplateSpec where
  Spec : PodSpec
  deriving DecidableEq, Repr

/-- Modelled from the spec: the stage descriptor `scenarioconfig.CascadeScenarios`,
whose declaration is not among the sources; the fields are those `launchK8sJob`
reads (StageConfig of the data model). -/
structure CascadeScenarios where
  ModuleName : String
  Template : PodTemplateSpec
  Configuration : List (String × String)
  TTLSecondsAfterFinished : Option Int
  BackoffLimit : Option Int
  ActiveDeadlineSeconds : Option Int
  deriving DecidableEq, Repr

/-- `batchv1.Job` as built by `launchK8sJob`. -/
structure Job where
  Name : String
  Namespace : String
  Labels : List (String × String)
  Template : PodTemplateSpec
  TTLSecondsAfterFinished : Option Int
  BackoffLimit : Option Int
  ActiveDeadlineSeconds : Option Int
  deriving DecidableEq, Repr

/-- The counters of `job.Status` read by `getJobStatus`. -/
structure JobCounters where
  Active : Int
  Succeeded : Int
  Failed : Int
  deriving DecidableEq, Repr

/-- One call made by the process; the first field of a scheduler call is the
index of the stage whose loop iteration issued it. -/
inductive Event
  | create (stage : Nat) (job : Job)
  | get (stage : Nat) (jobName jobNamespace : String) (status : JobStatus)
  | delete (stage : Nat) (jobName jobNamespace : String)
  | post (address message : String)
  deriving DecidableEq, Repr

/-- How the process ends: `os.Exit(code)`, or an unrecovered run-time panic. -/
inductive Outcome
  | exit (code : Nat)
  | panicked
  deriving DecidableEq, Repr

/-- The observable behaviour of a run; `outcome = none` when the status
answers ran out while a stage was still being polled. -/
structure Run where
  trace : List Event
  outcome : Option Outcome
  deriving DecidableEq, Repr

/-- The process configuration read from the environment and the answers of
the external services that the control flow depends on. `createErr i` is the
error of `Jobs.Create` for stage `i`; `postResp k` is the result of the `k`-th
`http.Post` (a transport error or the response status code). The error of
`Jobs.Delete` is only logged and is no input of the run. -/
structure World where
  jobNamespace : String
  statusServerAddress : String
  scenarioName : String
  createErr : Nat → Option String
  postResp : Nat → Except String Nat

/-! ## `webhook.SendWebHook` -/

/-- `SendWebHook`, as a function of the result of its `http.Post`: the status
code as text with no error, or the empty text with the transport error.
`json.Marshal` of a map from strings to strings does not fail. -/
def SendWebHook (resp : Except String Nat) : String × Option String :=
  match resp with
  | .error err => ("", some err)
  | .ok statusCode => (Itoa statusCode, none)

/-- The two logging statements after each `SendWebHook` call in `main`. The
second one evaluates `err.Error()` whenever the status text is not `"200"`,
which is a nil dereference when `err` is nil. -/
def logWebhook (statusCode : String) (err : Option String) : Option Outcome :=
  if statusCode ≠ "200" then
    match err with
    | none => some Outcome.panicked
    | some _ => none
  else none

/-! ## `launchK8sJob` -/

/-- The environment list `podEnv` built by `launchK8sJob`. -/
def podEnv (config : CascadeScenarios) (s3path : s3PackagePath) : List EnvVar :=
  let env0 := config.Configuration.map (fun kv => EnvVar.mk kv.1 kv.2)
  let env1 :=
    if s3path.stageNum > 0 then
      let split := Split s3path.path ".tgz"
      env0 ++
        [EnvVar.mk "s3path" (split.headD "" ++ "-stage-" ++ Itoa s3path.stageNum ++ ".tgz")]
    else env0
  if s3path.isLastStage then env1 ++ [EnvVar.mk "finalstage" "true"] else env1

/-- The assignment `JobTemplate.Spec.Containers[0].Env = podEnv`; `none` when the
index is out of range. -/
def setEnv (t : PodTemplateSpec) (env : List EnvVar) : Option PodTemplateSpec :=
  match t.Spec.Containers with
  | [] => none
  | c :: cs => some ⟨⟨{ c with Env := env } :: cs⟩⟩

/-- The job specification `jobSpec` of `launchK8sJob`. -/
def jobSpec (jobNamespace : String) (config : CascadeScenarios)
    (JobTemplate : PodTemplateSpec) : Job :=
  { Name := config.ModuleName
    Namespace := jobNamespace
    Labels := [("app", "Cascade"), ("modulename", config.ModuleName)]
    Template := JobTemplate
    TTLSecondsAfterFinished := config.TTLSecondsAfterFinished
    BackoffLimit := config.BackoffLimit
    ActiveDeadlineSeconds := config.ActiveDeadlineSeconds }

/-- `launchK8sJob` for the stage at index `i`: the calls it makes, and the way
the process ends when it does not return (`Fatal` exits with code 1). -/
def launchK8sJob (w : World) (i : Nat) (config : CascadeScenarios) (s3path : s3PackagePath) :
    List Event × Option Outcome :=
  match setEnv config.Template (podEnv config s3path) with
  | none => ([], some Outcome.panicked)
  | some JobTemplate =>
    let ev := [Event.create i (jobSpec w.jobNamespace config JobTemplate)]
    match w.createErr i with
    | some _ => (ev, some (Outcome.exit 1))
    | none => (ev, none)

/-! ## `getJobStatus` -/

/-- `getJobStatus`, as a function of the answer to its `Jobs.Get`. -/
def getJobStatus (q : Except String JobCounters) : JobStatus × Option String :=
  match q with
  | .error err => (JobStatus.notStarted, some err)
  | .ok job =>
    if job.Active = 0 ∧ job.Succeeded = 0 ∧ job.Failed = 0 then (JobStatus.notStarted, none)
    else if job.Succeeded > 0 then (JobStatus.Succeeded, none)
    else if job.Failed > 0 then (JobStatus.Failed, none)
    else (JobStatus.Running, none)

/-! ## `main` -/

/-- How one iteration of the polling loop ends: the loop goes round again with
the given `start` flag, it is left by `break`, or the process ends. -/
inductive Control
  | again (start : Bool)
  | brk
  | halt (o : Outcome)
  deriving DecidableEq, Repr

/-- The result of one iteration of the polling loop: the calls made, the number
of webhook calls made so far, and how the iteration ends. -/
structure Iteration where
  events : List Event
  hooks : Nat
  control : Control
  deriving DecidableEq, Repr

/-- One iteration of the polling loop of `main` for stage `i`, given the answer
`q` to its status query; `hooks` counts the webhook calls made so far. The
errors of the status query and of `deleteSuccessJob` are only logged. -/
def loopBody (w : World) (i : Nat) (jobConfig : CascadeScenarios) (start : Bool) (hooks : Nat)
    (q : Except String JobCounters) : Iteration :=
  let status := (getJobStatus q).1
  let poll := Event.get i jobConfig.ModuleName w.jobNamespace status
  if status = JobStatus.Running ∧ start = true then
    ⟨[poll], hooks, Control.again false⟩
  else if status = JobStatus.Succeeded then
    let r := SendWebHook (w.postResp hooks)
    let hook := Event.post w.statusServerAddress
      ("Module " ++ jobConfig.ModuleName ++ " in scenario " ++ w.scenarioName ++
        " finished successfully")
    match logWebhook r.1 r.2 with
    | some o => ⟨[poll, hook], hooks + 1, Control.halt o⟩
    | none =>
      ⟨[poll, hook, Event.delete i jobConfig.ModuleName w.jobNamespace], hooks + 1, Control.brk⟩
  else if status = JobStatus.Failed then
    let r := SendWebHook (w.postResp hooks)
    let hook := Event.post w.statusServerAddress
      ("Module " ++ jobConfig.ModuleName ++ " in scenario " ++ w.scenarioName ++ " failed")
    match logWebhook r.1 r.2 with
    | some o => ⟨[poll, hook], hooks + 1, Control.halt o⟩
    | none => ⟨[poll, hook], hooks + 1, Control.halt (Outcome.exit 1)⟩
  else ⟨[poll], hooks, Control.again start⟩

/-- How the polling loop of one stage ends: the status answers ran out, the
loop was left by `break` (with the webhook count and the unused answers), or
the process ended. -/
inductive LoopExit
  | pending
  | brk (hooks : Nat) (rest : List (Except String JobCounters))
  | halt (o : Outcome)

/-- The polling loop `for { ... }` of `main` for stage `i`. -/
def pollLoop (w : World) (i : Nat) (jobConfig : CascadeScenarios) :
    Bool → Nat → List (Except String JobCounters) → List Event × LoopExit
  | _, _, [] => ([], LoopExit.pending)
  | start, hooks, q :: qs =>
    let it := loopBody w i jobConfig start hooks q
    match it.control with
    | Control.again start1 =>
      let r := pollLoop w i jobConfig start1 it.hooks qs
      (it.events ++ r.1, r.2)
    | Control.brk => (it.events, LoopExit.brk it.hooks qs)
    | Control.halt o => (it.events, LoopExit.halt o)

/-- The final artifact path `resultS3path` of `main`. -/
def resultS3path (s3 : s3PackagePath) : String :=
  let split := Split s3.path ".tgz"
  split.headD "" ++ "-final" ++ ".tgz"

/-- The statements of `main` after the loop over the stages. -/
def finish (w : World) (s3 : s3PackagePath) (hooks : Nat) : Run :=
  let r := SendWebHook (w.postResp hooks)
  let hook := Event.post w.statusServerAddress
    ("Scenario " ++ w.scenarioName ++ " completed successfully. Package address - " ++
      resultS3path s3)
  match logWebhook r.1 r.2 with
  | some o => ⟨[hook], some o⟩
  | none => ⟨[hook], some (Outcome.exit 0)⟩

/-- The updates of `s3PackagePath` at the top of the body of the loop over the
stages, for the stage at index `i` of `n`. -/
def updatePath (n : Nat) (jobConfig : CascadeScenarios) (i : Nat) (s3 : s3PackagePath) :
    s3PackagePath :=
  let s3a : s3PackagePath :=
    if i = 0 then { s3 with path := mapIndex jobConfig.Configuration "s3path" } else s3
  let s3b : s3PackagePath :=
    if (i : Int) = (n : Int) - 1 then { s3a with isLastStage := true } else s3a
  { s3b with stageNum := i }

/-- The loop `for i, jobConfig := range CascadeScenatioConfig` of `main`, from
index `i` on, followed by the rest of `main`; `n` is the length of the whole
stage list. -/
def stageLoop (w : World) (n : Nat) :
    List CascadeScenarios → Nat → s3PackagePath → Nat → List (Except String JobCounters) → Run
  | [], _, s3, hooks, _ => finish w s3 hooks
  | jobConfig :: rest, i, s3, hooks, polls =>
    let s3c := updatePath n jobConfig i s3
    match launchK8sJob w i jobConfig s3c with
    | (ev, some o) => ⟨ev, some o⟩
    | (ev, none) =>
      match pollLoop w i jobConfig true hooks polls with
      | (ev2, LoopExit.pending) => ⟨ev ++ ev2, none⟩
      | (ev2, LoopExit.halt o) => ⟨ev ++ ev2, some o⟩
      | (ev2, LoopExit.brk hooks1 polls1) =>
        let r := stageLoop w n rest (i + 1) s3c hooks1 polls1
        ⟨ev ++ ev2 ++ r.trace, r.outcome⟩

/-- The function `main`, from the parsed stage list on: `s3PackagePath` starts as
the zero value of its type. -/
def main (w : World) (CascadeScenatioConfig : List CascadeScenarios)
    (polls : List (Except String JobCounters)) : Run :=
  stageLoop w CascadeScenatioConfig.length CascadeScenatioConfig 0 ⟨0, "", false⟩ 0 polls

/-! ## Observations on traces -/

/-- Whether a call is a job submission. -/
def Event.isCreate : Event → Bool
  | Event.create _ _ => true
  | _ => false

/-- The stage index and job name of a job submission. -/
def submitted : Event → Option (Nat × String)
  | Event.create i job => some (i, job.Name)
  | _ => none

/-- The stage index of a job deletion. -/
def deleted : Event → Option Nat
  | Event.delete i _ _ => some i
  | _ => none

/-- The environment list of the first container of a submitted job. -/
def jobEnv (job : Job) : Option (List EnvVar) :=
  job.Template.Spec.Containers.head?.map (fun c => c.Env)

/-- The text `sep` occurs somewhere in the text `s`. -/
def occursIn (sep s : String) : Prop := sep.data <:+: s.data

instance (sep s : String) : Decidable (occursIn sep s) := by
  unfold occursIn; infer_instance

/-- No webhook call is answered with a status code other than 200: each one
either gets the answer 200 or fails in transport. -/
def healthy (w : World) : Prop :=
  ∀ k, w.postResp k = .ok 200 ∨ ∃ err, w.postResp k = .error err

/-- The message of a webhook call. -/
def posted : Event → Option String
  | Event.post _ message => some message
  | _ => none

/-- The status answers make each of the next `n` polled stages succeed: for
each stage in turn, after any number of answers classified `notStarted` or
`Running` (query errors included) there is one classified `Succeeded`. -/
def eventuallySucceeded : Nat → List (Except String JobCounters) → Bool
  | 0, _ => true
  | _ + 1, [] => false
  | n + 1, q :: qs =>
    match (getJobStatus q).1 with
    | JobStatus.Succeeded => eventuallySucceeded n qs
    | JobStatus.Failed => false
    | _ => eventuallySucceeded (n + 1) qs

/-! ## Example inputs -/

/-- A pod template with one container and an empty environment. -/
def exampleTemplate : PodTemplateSpec := ⟨⟨[⟨"worker", []⟩]⟩⟩

/-- A stage with the given module name and configuration entries. -/
def exampleStage (moduleName : String) (configuration : List (String × String)) :
    CascadeScenarios :=
  ⟨moduleName, exampleTemplate, configuration, none, none, none⟩

/-- The job `launchK8sJob` submits for `exampleStage moduleName configuration`
in namespace `default` when the environment list it built is `env`. -/
def exampleJob (moduleName : String) (configuration : List (String × String))
    (env : List EnvVar) : Job :=
  jobSpec "default" (exampleStage moduleName configuration) ⟨⟨[⟨"worker", env⟩]⟩⟩

/-- A world in which every job creation succeeds and the `k`-th webhook call is
answered as `postResp k` says. -/
def exampleWorld (postResp : Nat → Except String Nat) : World :=
  ⟨"default", "http://status:8000", "Test-image-processing", fun _ => none, postResp⟩

/-- The scenario of the specification's example: three stages, the first one
carrying the seed path `pkg.tgz`. -/
def exampleScenario : List CascadeScenarios :=
  [exampleStage "ingest" [("s3path", "pkg.tgz")], exampleStage "transform" [],
    exampleStage "export" []]

/-- A status answer with one succeeded pod. -/
def succeededAnswer : Except String JobCounters := .ok ⟨0, 1, 0⟩

/-- A status answer with one failed pod. -/
def failedAnswer : Except String JobCounters := .ok ⟨0, 0, 1⟩

/-- A status answer with one active pod. -/
def activeAnswer : Except String JobCounters := .ok ⟨1, 0, 0⟩

/-! ## Splitting at `.tgz` -/

theorem isPrefixOf_tgz_append (c : Char) (cs : List Char)
    (h : ¬ ".tgz".data <:+: (c :: cs)) :
    ".tgz".data.isPrefixOf (c :: (cs ++ ".tgz".data)) = false := by
  by_contra hp
  simp only [Bool.not_eq_false] at hp
  apply h
  match cs, hp with
  | [], hp =>
    simp [List.isPrefixOf] at hp
  | [a], hp =>
    simp [List.isPrefixOf] at hp
  | [a, b], hp =>
    simp [List.isPrefixOf] at hp
  | a :: b :: d :: rest, hp =>
    simp [List.isPrefixOf] at hp
    obtain ⟨h1, h2, h3, h4⟩ := hp
    subst h1 h2 h3 h4
    exact ⟨[], rest, by simp⟩

theorem splitGo_tgz (p : List Char) (h : ¬ ".tgz".data <:+: p) :
    splitGo ".tgz".data 0 (p ++ ".tgz".data) = [p, []] := by
  induction p with
  | nil => rfl
  | cons c cs ih =>
    have hcs : ¬ ".tgz".data <:+: cs := fun hi => h (hi.trans (List.suffix_cons c cs).isInfix)
    have hp := isPrefixOf_tgz_append c cs h
    rw [List.cons_append, splitGo, hp, ih hcs]
    simp

theorem Split_tgz (p : String) (h : ¬ occursIn ".tgz" p) :
    Split (p ++ ".tgz") ".tgz" = [p, ""] := by
  have hne : ¬ (".tgz".data = []) := by decide
  simp only [Split, hne, if_false, String.data_append]
  rw [splitGo_tgz p.data h]
  rfl

/-! ## One iteration of the polling loop -/

theorem loopBody_not_create (w : World) (i : Nat) (jobConfig : CascadeScenarios) (start : Bool)
    (hooks : Nat) (q : Except String JobCounters) :
    ∀ e ∈ (loopBody w i jobConfig start hooks q).events, e.isCreate = false := by
  intro e he
  unfold loopBody at he
  simp only at he
  split_ifs at he
  · simp at he; subst he; rfl
  · split at he <;> simp at he <;> rcases he with rfl | rfl | rfl <;> rfl
  · split at he <;> simp at he <;> rcases he with rfl | rfl <;> rfl
  · simp at he; subst he; rfl

theorem loopBody_brk (w : World) (i : Nat) (jobConfig : CascadeScenarios) (start : Bool)
    (hooks : Nat) (q : Except String JobCounters)
    (h : (loopBody w i jobConfig start hooks q).control = Control.brk) :
    (getJobStatus q).1 = JobStatus.Succeeded ∧
    (loopBody w i jobConfig start hooks q).events =
      [Event.get i jobConfig.ModuleName w.jobNamespace JobStatus.Succeeded,
       Event.post w.statusServerAddress
        ("Module " ++ jobConfig.ModuleName ++ " in scenario " ++ w.scenarioName ++
          " finished successfully"),
       Event.delete i jobConfig.ModuleName w.jobNamespace] := by
  unfold loopBody at h ⊢
  simp only at h ⊢
  cases hl : logWebhook (SendWebHook (w.postResp hooks)).1 (SendWebHook (w.postResp hooks)).2 <;>
    split_ifs at h ⊢ <;> simp_all

theorem logWebhook_some (statusCode : String) (err : Option String) (o : Outcome)
    (h : logWebhook statusCode err = some o) : o = Outcome.panicked := by
  unfold logWebhook at h
  split_ifs at h
  cases err with
  | none => simp at h; exact h.symm
  | some e => simp at h

theorem loopBody_halt (w : World) (i : Nat) (jobConfig : CascadeScenarios) (start : Bool)
    (hooks : Nat) (q : Except String JobCounters) (o : Outcome)
    (h : (loopBody w i jobConfig start hooks q).control = Control.halt o) :
    o = Outcome.exit 1 ∨ o = Outcome.panicked := by
  unfold loopBody at h
  simp only at h
  cases hl : logWebhook (SendWebHook (w.postResp hooks)).1 (SendWebHook (w.postResp hooks)).2 with
  | some o1 =>
    have ho := logWebhook_some _ _ _ hl
    split_ifs at h <;> simp_all
  | none =>
    split_ifs at h <;> simp_all

/-! ## The polling loop of one stage -/

theorem pollLoop_not_create (w : World) (i : Nat) (jobConfig : CascadeScenarios) :
    ∀ (polls : List (Except String JobCounters)) (start : Bool) (hooks : Nat),
      ∀ e ∈ (pollLoop w i jobConfig start hooks polls).1, e.isCreate = false := by
  intro polls
  induction polls with
  | nil => intro start hooks e he; simp [pollLoop] at he
  | cons q qs ih =>
    intro start hooks e he
    have hb := loopBody_not_create w i jobConfig start hooks q
    unfold pollLoop at he
    simp only at he
    cases hc : (loopBody w i jobConfig start hooks q).control with
    | again start1 =>
      rw [hc] at he
      simp only [List.mem_append] at he
      rcases he with he | he
      · exact hb e he
      · exact ih start1 _ e he
    | brk => rw [hc] at he; exact hb e he
    | halt o => rw [hc] at he; exact hb e he

theorem pollLoop_brk (w : World) (i : Nat) (jobConfig : CascadeScenarios) :
    ∀ (polls : List (Except String JobCounters)) (start : Bool) (hooks hooks1 : Nat)
      (rest : List (Except String JobCounters)),
      (pollLoop w i jobConfig start hooks polls).2 = LoopExit.brk hooks1 rest →
      ∃ pre, (pollLoop w i jobConfig start hooks polls).1 =
        pre ++ [Event.get i jobConfig.ModuleName w.jobNamespace JobStatus.Succeeded,
          Event.post w.statusServerAddress
            ("Module " ++ jobConfig.ModuleName ++ " in scenario " ++ w.scenarioName ++
              " finished successfully"),
          Event.delete i jobConfig.ModuleName w.jobNamespace] := by
  intro polls
  induction polls with
  | nil => intro start hooks hooks1 rest h; simp [pollLoop] at h
  | cons q qs ih =>
    intro start hooks hooks1 rest h
    unfold pollLoop at h ⊢
    simp only at h ⊢
    cases hc : (loopBody w i jobConfig start hooks q).control with
    | again start1 =>
      rw [hc] at h
      simp only at h ⊢
      obtain ⟨pre, hpre⟩ := ih start1 _ hooks1 rest h
      exact ⟨(loopBody w i jobConfig start hooks q).events ++ pre, by rw [hpre, List.append_assoc]⟩
    | brk =>
      simp only
      exact ⟨[], by rw [(loopBody_brk w i jobConfig start hooks q hc).2]; rfl⟩
    | halt o => rw [hc] at h; simp at h

theorem pollLoop_halt (w : World) (i : Nat) (jobConfig : CascadeScenarios) :
    ∀ (polls : List (Except String JobCounters)) (start : Bool) (hooks : Nat) (o : Outcome),
      (pollLoop w i jobConfig start hooks polls).2 = LoopExit.halt o →
      o = Outcome.exit 1 ∨ o = Outcome.panicked := by
  intro polls
  induction polls with
  | nil => intro start hooks o h; simp [pollLoop] at h
  | cons q qs ih =>
    intro start hooks o h
    unfold pollLoop at h
    simp only at h
    cases hc : (loopBody w i jobConfig start hooks q).control with
    | again start1 => rw [hc] at h; exact ih start1 _ o h
    | brk => rw [hc] at h; simp at h
    | halt o1 =>
      rw [hc] at h
      simp only [LoopExit.halt.injEq] at h
      subst h
      exact loopBody_halt w i jobConfig start hooks q o1 hc

/-! ## `launchK8sJob` -/

theorem launchK8sJob_cases (w : World) (i : Nat) (config : CascadeScenarios) (s3path : s3PackagePath) :
    (setEnv config.Template (podEnv config s3path) = none ∧
      launchK8sJob w i config s3path = ([], some Outcome.panicked)) ∨
    (∃ tpl, setEnv config.Template (podEnv config s3path) = some tpl ∧
      (launchK8sJob w i config s3path).1 = [Event.create i (jobSpec w.jobNamespace config tpl)] ∧
      ((launchK8sJob w i config s3path).2 = none ∨
        (launchK8sJob w i config s3path).2 = some (Outcome.exit 1))) := by
  unfold launchK8sJob
  cases hs : setEnv config.Template (podEnv config s3path) with
  | none => exact Or.inl ⟨rfl, rfl⟩
  | some tpl =>
    refine Or.inr ⟨tpl, rfl, ?_⟩
    cases hc : w.createErr i <;> simp

theorem mem_split_right {A B pre post : List Event} {e : Event}
    (h : A ++ B = pre ++ e :: post) (hA : e ∉ A) :
    ∃ pre1, pre = A ++ pre1 ∧ B = pre1 ++ e :: post := by
  rcases List.append_eq_append_iff.mp h with ⟨a1, h1, h2⟩ | ⟨c1, h1, h2⟩
  · exact ⟨a1, h1, h2⟩
  · cases c1 with
    | nil => exact ⟨[], by simp [h1], by simpa using h2.symm⟩
    | cons x c2 =>
      simp only [List.cons_append, List.cons.injEq] at h2
      exact absurd (by rw [h1, h2.1]; simp) hA

/-! ## The loop over the stages -/

theorem finish_trace (w : World) (s3 : s3PackagePath) (hooks : Nat) :
    (finish w s3 hooks).trace =
      [Event.post w.statusServerAddress
        ("Scenario " ++ w.scenarioName ++ " completed successfully. Package address - " ++
          resultS3path s3)] := by
  unfold finish
  simp only
  split <;> rfl

theorem stageLoop_cons (w : World) (n : Nat) (cfg : CascadeScenarios) (rest : List CascadeScenarios)
    (i : Nat) (s3 : s3PackagePath) (hooks : Nat) (polls : List (Except String JobCounters)) :
    (setEnv cfg.Template (podEnv cfg (updatePath n cfg i s3)) = none ∧
      stageLoop w n (cfg :: rest) i s3 hooks polls = ⟨[], some Outcome.panicked⟩) ∨
    ∃ tpl, setEnv cfg.Template (podEnv cfg (updatePath n cfg i s3)) = some tpl ∧
      (stageLoop w n (cfg :: rest) i s3 hooks polls =
          ⟨[Event.create i (jobSpec w.jobNamespace cfg tpl)], some (Outcome.exit 1)⟩ ∨
        ((pollLoop w i cfg true hooks polls).2 = LoopExit.pending ∧
          stageLoop w n (cfg :: rest) i s3 hooks polls =
            ⟨[Event.create i (jobSpec w.jobNamespace cfg tpl)] ++
              (pollLoop w i cfg true hooks polls).1, none⟩) ∨
        (∃ o, (pollLoop w i cfg true hooks polls).2 = LoopExit.halt o ∧
          stageLoop w n (cfg :: rest) i s3 hooks polls =
            ⟨[Event.create i (jobSpec w.jobNamespace cfg tpl)] ++
              (pollLoop w i cfg true hooks polls).1, some o⟩) ∨
        (∃ hooks1 polls1, (pollLoop w i cfg true hooks polls).2 = LoopExit.brk hooks1 polls1 ∧
          stageLoop w n (cfg :: rest) i s3 hooks polls =
            ⟨[Event.create i (jobSpec w.jobNamespace cfg tpl)] ++
              (pollLoop w i cfg true hooks polls).1 ++
              (stageLoop w n rest (i + 1) (updatePath n cfg i s3) hooks1 polls1).trace,
             (stageLoop w n rest (i + 1) (updatePath n cfg i s3) hooks1 polls1).outcome⟩)) := by
  rcases launchK8sJob_cases w i cfg (updatePath n cfg i s3) with ⟨hs, hl⟩ | ⟨tpl, hs, hl1, hl2⟩
  · left
    refine ⟨hs, ?_⟩
    rw [stageLoop]
    simp only [hl]
  · right
    refine ⟨tpl, hs, ?_⟩
    rcases hlk : launchK8sJob w i cfg (updatePath n cfg i s3) with ⟨ev, oc⟩
    rw [hlk] at hl1 hl2
    simp only at hl1 hl2
    subst hl1
    rcases hl2 with rfl | rfl
    · right
      rcases hp : pollLoop w i cfg true hooks polls with ⟨ev2, ex⟩
      cases ex with
      | pending =>
        left
        refine ⟨rfl, ?_⟩
        rw [stageLoop]
        simp only [hlk, hp]
      | halt o =>
        right; left
        refine ⟨o, rfl, ?_⟩
        rw [stageLoop]
        simp only [hlk, hp]
      | brk hooks1 polls1 =>
        right; right
        refine ⟨hooks1, polls1, rfl, ?_⟩
        rw [stageLoop]
        simp only [hlk, hp]
    · left
      rw [stageLoop]
      simp only [hlk]

theorem updatePath_eq (n : Nat) (cfg : CascadeScenarios) (rest : List CascadeScenarios) (i : Nat)
    (s3 : s3PackagePath) (hn : i + (cfg :: rest).length = n) (hlast : s3.isLastStage = false) :
    updatePath n cfg i s3 =
      ⟨i, if i = 0 then mapIndex cfg.Configuration "s3path" else s3.path, decide (i + 1 = n)⟩ := by
  obtain ⟨sn, sp, sl⟩ := s3
  simp only at hlast
  subst hlast
  simp only [List.length_cons] at hn
  unfold updatePath
  have hiff : ((i : Int) = (n : Int) - 1) ↔ (i + 1 = n) := by omega
  simp only [hiff]
  by_cases h0 : i = 0
  · by_cases h1 : i + 1 = n
    · rw [if_pos h0, if_pos h0, if_pos h1, decide_eq_true h1]
    · rw [if_pos h0, if_pos h0, if_neg h1, decide_eq_false h1]
  · by_cases h1 : i + 1 = n
    · rw [if_neg h0, if_neg h0, if_pos h1, decide_eq_true h1]
    · rw [if_neg h0, if_neg h0, if_neg h1, decide_eq_false h1]

theorem stageLoop_create (w : World) (n : Nat) :
    ∀ (stages : List CascadeScenarios) (i : Nat) (s3 : s3PackagePath) (hooks : Nat)
      (polls : List (Except String JobCounters)) (seed : String) (j : Nat) (job : Job),
      i + stages.length = n → (stages ≠ [] → s3.isLastStage = false) →
      (∀ c ∈ stages.head?, (if i = 0 then mapIndex c.Configuration "s3path" else s3.path) = seed) →
      Event.create j job ∈ (stageLoop w n stages i s3 hooks polls).trace →
      ∃ cfg tpl, i ≤ j ∧ stages[j - i]? = some cfg ∧
        setEnv cfg.Template (podEnv cfg ⟨j, seed, decide (j + 1 = n)⟩) = some tpl ∧
        job = jobSpec w.jobNamespace cfg tpl := by
  intro stages
  induction stages with
  | nil =>
    intro i s3 hooks polls seed j job _ _ _ hmem
    rw [stageLoop, finish_trace] at hmem
    simp at hmem
  | cons cfg rest ih =>
    intro i s3 hooks polls seed j job hn hlast hseed hmem
    have hu := updatePath_eq n cfg rest i s3 hn (hlast (by simp))
    have hsd : (if i = 0 then mapIndex cfg.Configuration "s3path" else s3.path) = seed :=
      hseed cfg (by simp)
    rw [hsd] at hu
    have hhere : ∀ tpl, setEnv cfg.Template (podEnv cfg (updatePath n cfg i s3)) = some tpl →
        Event.create j job = Event.create i (jobSpec w.jobNamespace cfg tpl) →
        ∃ cfg1 tpl1, i ≤ j ∧ (cfg :: rest)[j - i]? = some cfg1 ∧
          setEnv cfg1.Template (podEnv cfg1 ⟨j, seed, decide (j + 1 = n)⟩) = some tpl1 ∧
          job = jobSpec w.jobNamespace cfg1 tpl1 := by
      intro tpl hs he
      simp only [Event.create.injEq] at he
      obtain ⟨hj, hjob⟩ := he
      subst hj
      refine ⟨cfg, tpl, le_refl _, by simp, ?_, hjob⟩
      rw [← hu]; exact hs
    have hpoll : Event.create j job ∉ (pollLoop w i cfg true hooks polls).1 := by
      intro hm
      have := pollLoop_not_create w i cfg polls true hooks _ hm
      simp [Event.isCreate] at this
    rcases stageLoop_cons w n cfg rest i s3 hooks polls with
      ⟨_, hR⟩ | ⟨tpl, hs, hR | ⟨_, hR⟩ | ⟨o, _, hR⟩ | ⟨hooks1, polls1, _, hR⟩⟩
    · rw [hR] at hmem; simp at hmem
    · rw [hR] at hmem
      simp only [List.mem_singleton] at hmem
      exact hhere tpl hs hmem
    · rw [hR] at hmem
      simp only [List.mem_append, List.mem_singleton] at hmem
      rcases hmem with hmem | hmem
      · exact hhere tpl hs hmem
      · exact absurd hmem hpoll
    · rw [hR] at hmem
      simp only [List.mem_append, List.mem_singleton] at hmem
      rcases hmem with hmem | hmem
      · exact hhere tpl hs hmem
      · exact absurd hmem hpoll
    · rw [hR] at hmem
      simp only [List.mem_append, List.mem_singleton] at hmem
      rcases hmem with (hmem | hmem) | hmem
      · exact hhere tpl hs hmem
      · exact absurd hmem hpoll
      · have hn1 : (i + 1) + rest.length = n := by simp only [List.length_cons] at hn; omega
        have hlast1 : rest ≠ [] → (updatePath n cfg i s3).isLastStage = false := by
          intro hne
          rw [hu]
          have : 0 < rest.length := List.length_pos.mpr hne
          simp only [decide_eq_false_iff_not]
          omega
        have hseed1 : ∀ c ∈ rest.head?,
            (if i + 1 = 0 then mapIndex c.Configuration "s3path"
              else (updatePath n cfg i s3).path) = seed := by
          intro c _
          rw [hu]
          simp
        obtain ⟨cfg1, tpl1, hle, hget, hset, hjob⟩ :=
          ih (i + 1) (updatePath n cfg i s3) hooks1 polls1 seed j job hn1 hlast1 hseed1 hmem
        refine ⟨cfg1, tpl1, by omega, ?_, hset, hjob⟩
        have hji : j - i = (j - (i + 1)) + 1 := by omega
        rw [hji, List.getElem?_cons_succ]
        exact hget

theorem filterMap_submitted_nil (l : List Event) (h : ∀ e ∈ l, e.isCreate = false) :
    l.filterMap submitted = [] := by
  induction l with
  | nil => rfl
  | cons e es ih =>
    have he := h e (by simp)
    have hes := ih (fun x hx => h x (by simp [hx]))
    cases e <;> simp_all [Event.isCreate, submitted, List.filterMap_cons]

theorem stageLoop_submitted (w : World) (n : Nat) :
    ∀ (stages : List CascadeScenarios) (i : Nat) (s3 : s3PackagePath) (hooks : Nat)
      (polls : List (Except String JobCounters)),
      (stageLoop w n stages i s3 hooks polls).trace.filterMap submitted <+:
        (stages.enumFrom i).map (fun p => (p.1, p.2.ModuleName)) := by
  intro stages
  induction stages with
  | nil =>
    intro i s3 hooks polls
    rw [stageLoop, finish_trace]
    simp [submitted]
  | cons cfg rest ih =>
    intro i s3 hooks polls
    have hp := filterMap_submitted_nil _ (pollLoop_not_create w i cfg polls true hooks)
    rcases stageLoop_cons w n cfg rest i s3 hooks polls with
      ⟨_, hR⟩ | ⟨tpl, hs, hR | ⟨_, hR⟩ | ⟨o, _, hR⟩ | ⟨hooks1, polls1, _, hR⟩⟩
    · rw [hR]; simp
    · rw [hR]
      simp [submitted, jobSpec, List.enumFrom_cons, List.prefix_cons_inj]
    · rw [hR]
      simp [submitted, jobSpec, List.enumFrom_cons, List.prefix_cons_inj, hp]
    · rw [hR]
      simp [submitted, jobSpec, List.enumFrom_cons, List.prefix_cons_inj, hp]
    · rw [hR]
      have := ih (i + 1) (updatePath n cfg i s3) hooks1 polls1
      simp [submitted, jobSpec, List.enumFrom_cons, List.prefix_cons_inj, hp]
      simpa using this

theorem stageLoop_order (w : World) (n : Nat) :
    ∀ (stages : List CascadeScenarios) (i : Nat) (s3 : s3PackagePath) (hooks : Nat)
      (polls : List (Except String JobCounters)) (pre post : List Event) (j : Nat) (job : Job),
      (stageLoop w n stages i s3 hooks polls).trace = pre ++ Event.create j job :: post →
      i ≤ j ∧ (i < j → ∃ cfg, stages[j - 1 - i]? = some cfg ∧
        Event.get (j - 1) cfg.ModuleName w.jobNamespace JobStatus.Succeeded ∈ pre ∧
        Event.delete (j - 1) cfg.ModuleName w.jobNamespace ∈ pre) := by
  intro stages
  induction stages with
  | nil =>
    intro i s3 hooks polls pre post j job h
    rw [stageLoop, finish_trace] at h
    have hm : Event.create j job ∈ pre ++ Event.create j job :: post := by simp
    rw [← h] at hm
    simp at hm
  | cons cfg rest ih =>
    intro i s3 hooks polls pre post j job h
    have hpoll : Event.create j job ∉ (pollLoop w i cfg true hooks polls).1 := by
      intro hm
      have := pollLoop_not_create w i cfg polls true hooks _ hm
      simp [Event.isCreate] at this
    have hm : Event.create j job ∈ (stageLoop w n (cfg :: rest) i s3 hooks polls).trace := by
      rw [h]; simp
    have hhead : ∀ (tpl : PodTemplateSpec) (tl : List Event),
        Event.create i (jobSpec w.jobNamespace cfg tpl) :: tl = pre ++ Event.create j job :: post →
        (pre = [] ∧ j = i) ∨
          ∃ pre1, pre = Event.create i (jobSpec w.jobNamespace cfg tpl) :: pre1 ∧
            tl = pre1 ++ Event.create j job :: post := by
      intro tpl tl htl
      cases pre with
      | nil =>
        simp only [List.nil_append, List.cons.injEq, Event.create.injEq] at htl
        exact Or.inl ⟨rfl, htl.1.1.symm⟩
      | cons x pre1 =>
        simp only [List.cons_append, List.cons.injEq] at htl
        exact Or.inr ⟨pre1, by rw [htl.1], htl.2⟩
    rcases stageLoop_cons w n cfg rest i s3 hooks polls with
      ⟨_, hR⟩ | ⟨tpl, hs, hR | ⟨_, hR⟩ | ⟨o, _, hR⟩ | ⟨hooks1, polls1, hbrk, hR⟩⟩
    · rw [hR] at hm; simp at hm
    · rw [hR] at h
      rcases hhead tpl [] h with ⟨_, hj⟩ | ⟨pre1, _, htl⟩
      · subst hj; exact ⟨le_refl _, fun hlt => absurd hlt (lt_irrefl _)⟩
      · simp at htl
    · rw [hR] at h
      simp only [List.singleton_append] at h
      rcases hhead tpl _ h with ⟨_, hj⟩ | ⟨pre1, _, htl⟩
      · subst hj; exact ⟨le_refl _, fun hlt => absurd hlt (lt_irrefl _)⟩
      · exact absurd (by rw [htl]; simp) hpoll
    · rw [hR] at h
      simp only [List.singleton_append] at h
      rcases hhead tpl _ h with ⟨_, hj⟩ | ⟨pre1, _, htl⟩
      · subst hj; exact ⟨le_refl _, fun hlt => absurd hlt (lt_irrefl _)⟩
      · exact absurd (by rw [htl]; simp) hpoll
    · rw [hR] at h
      simp only [List.singleton_append, List.cons_append, List.nil_append] at h
      rcases hhead tpl _ h with ⟨_, hj⟩ | ⟨pre1, hpre, htl⟩
      · subst hj; exact ⟨le_refl _, fun hlt => absurd hlt (lt_irrefl _)⟩
      · obtain ⟨pre2, hpre2, hrest⟩ := mem_split_right htl hpoll
        obtain ⟨hle, hget⟩ := ih (i + 1) (updatePath n cfg i s3) hooks1 polls1 pre2 post j job hrest
        refine ⟨by omega, fun _ => ?_⟩
        by_cases hj : j = i + 1
        · subst hj
          obtain ⟨pre0, hpre0⟩ := pollLoop_brk w i cfg polls true hooks hooks1 polls1 hbrk
          refine ⟨cfg, by simp, ?_⟩
          rw [hpre, hpre2, hpre0]
          simp
        · obtain ⟨cfg1, hc1, hmem1⟩ := hget (by omega)
          refine ⟨cfg1, ?_, ?_⟩
          · have hji : j - 1 - i = (j - 1 - (i + 1)) + 1 := by omega
            rw [hji, List.getElem?_cons_succ]
            exact hc1
          · rw [hpre, hpre2]
            simp [hmem1.1, hmem1.2]

theorem finish_exit (w : World) (s3 : s3PackagePath) (hooks : Nat) :
    (finish w s3 hooks).outcome = some (Outcome.exit 0) ∨
      (finish w s3 hooks).outcome = some Outcome.panicked := by
  unfold finish
  simp only
  cases hl : logWebhook (SendWebHook (w.postResp hooks)).1 (SendWebHook (w.postResp hooks)).2 with
  | none => exact Or.inl rfl
  | some o => exact Or.inr (by rw [logWebhook_some _ _ _ hl])

theorem updatePath_path (n : Nat) (cfg : CascadeScenarios) (i : Nat) (s3 : s3PackagePath) :
    (updatePath n cfg i s3).path =
      if i = 0 then mapIndex cfg.Configuration "s3path" else s3.path := by
  unfold updatePath
  simp only
  split_ifs <;> rfl

theorem stageLoop_exit0 (w : World) (n : Nat) :
    ∀ (stages : List CascadeScenarios) (i : Nat) (s3 : s3PackagePath) (hooks : Nat)
      (polls : List (Except String JobCounters)) (seed : String),
      (stages = [] → s3.path = seed) →
      (∀ c ∈ stages.head?, (if i = 0 then mapIndex c.Configuration "s3path" else s3.path) = seed) →
      (stageLoop w n stages i s3 hooks polls).outcome = some (Outcome.exit 0) →
      (stageLoop w n stages i s3 hooks polls).trace.getLast? =
        some (Event.post w.statusServerAddress
          ("Scenario " ++ w.scenarioName ++ " completed successfully. Package address - " ++
            ((Split seed ".tgz").headD "" ++ "-final" ++ ".tgz"))) := by
  intro stages
  induction stages with
  | nil =>
    intro i s3 hooks polls seed hnil _ _
    rw [stageLoop, finish_trace, resultS3path, hnil rfl]
    rfl
  | cons cfg rest ih =>
    intro i s3 hooks polls seed _ hseed hout
    have hsd : (if i = 0 then mapIndex cfg.Configuration "s3path" else s3.path) = seed :=
      hseed cfg (by simp)
    rcases stageLoop_cons w n cfg rest i s3 hooks polls with
      ⟨_, hR⟩ | ⟨tpl, hs, hR | ⟨_, hR⟩ | ⟨o, ho, hR⟩ | ⟨hooks1, polls1, hbrk, hR⟩⟩
    · rw [hR] at hout; simp at hout
    · rw [hR] at hout; simp at hout
    · rw [hR] at hout; simp at hout
    · rw [hR] at hout
      simp only [Option.some.injEq] at hout
      subst hout
      rcases pollLoop_halt w i cfg polls true hooks _ ho with h1 | h1 <;> simp at h1
    · rw [hR] at hout ⊢
      simp only at hout ⊢
      have hp : (updatePath n cfg i s3).path = seed := by rw [updatePath_path, hsd]
      have hlast := ih (i + 1) (updatePath n cfg i s3) hooks1 polls1 seed (fun _ => hp)
        (fun c _ => by simp [hp]) hout
      have hne : (stageLoop w n rest (i + 1) (updatePath n cfg i s3) hooks1 polls1).trace ≠ [] := by
        intro hnil
        rw [hnil] at hlast
        simp at hlast
      rw [List.getLast?_append_of_ne_nil _ hne]
      exact hlast

/-! ## `main` -/

theorem main_create (w : World) (stages : List CascadeScenarios)
    (polls : List (Except String JobCounters)) (seed : String) (i : Nat) (job : Job)
    (hseed : ∀ c ∈ stages.head?, mapIndex c.Configuration "s3path" = seed)
    (hmem : Event.create i job ∈ (main w stages polls).trace) :
    ∃ cfg tpl, stages[i]? = some cfg ∧
      setEnv cfg.Template (podEnv cfg ⟨i, seed, decide (i + 1 = stages.length)⟩) = some tpl ∧
      job = jobSpec w.jobNamespace cfg tpl := by
  obtain ⟨cfg, tpl, _, hget, hset, hjob⟩ :=
    stageLoop_create w stages.length stages 0 ⟨0, "", false⟩ 0 polls seed i job (by simp)
      (fun _ => rfl) (fun c hc => by simpa using hseed c hc) hmem
  exact ⟨cfg, tpl, by simpa using hget, hset, hjob⟩

theorem jobEnv_jobSpec (ns : String) (cfg : CascadeScenarios) (env : List EnvVar)
    (tpl : PodTemplateSpec) (h : setEnv cfg.Template env = some tpl) :
    jobEnv (jobSpec ns cfg tpl) = some env := by
  unfold setEnv at h
  split at h
  · simp at h
  · simp only [Option.some.injEq] at h
    subst h
    simp [jobEnv, jobSpec]

theorem podEnv_eq (cfg : CascadeScenarios) (s3 : s3PackagePath) :
    podEnv cfg s3 =
      cfg.Configuration.map (fun kv => EnvVar.mk kv.1 kv.2) ++
        (if s3.stageNum > 0 then
          [EnvVar.mk "s3path"
            ((Split s3.path ".tgz").headD "" ++ "-stage-" ++ Itoa s3.stageNum ++ ".tgz")]
          else []) ++
        (if s3.isLastStage = true then [EnvVar.mk "finalstage" "true"] else []) := by
  unfold podEnv
  simp only
  split_ifs <;> simp

/-! ## Runs in which a stage fails -/

theorem logWebhook_healthy (w : World) (hw : healthy w) (k : Nat) :
    logWebhook (SendWebHook (w.postResp k)).1 (SendWebHook (w.postResp k)).2 = none := by
  rcases hw k with h | ⟨err, h⟩
  · rw [h]; rfl
  · rw [h]; rfl

theorem loopBody_cases (w : World) (i : Nat) (jobConfig : CascadeScenarios) (start : Bool)
    (hooks : Nat) (q : Except String JobCounters) :
    ((getJobStatus q).1 ≠ JobStatus.Succeeded ∧ (getJobStatus q).1 ≠ JobStatus.Failed ∧
      (loopBody w i jobConfig start hooks q).events =
        [Event.get i jobConfig.ModuleName w.jobNamespace (getJobStatus q).1] ∧
      ∃ start1, (loopBody w i jobConfig start hooks q).control = Control.again start1) ∨
    ((getJobStatus q).1 = JobStatus.Succeeded ∧
      ((loopBody w i jobConfig start hooks q).control = Control.brk ∨
        ((loopBody w i jobConfig start hooks q).control = Control.halt Outcome.panicked ∧
          (loopBody w i jobConfig start hooks q).events =
            [Event.get i jobConfig.ModuleName w.jobNamespace JobStatus.Succeeded,
              Event.post w.statusServerAddress
                ("Module " ++ jobConfig.ModuleName ++ " in scenario " ++ w.scenarioName ++
                  " finished successfully")]))) ∨
    ((getJobStatus q).1 = JobStatus.Failed ∧
      (loopBody w i jobConfig start hooks q).events =
        [Event.get i jobConfig.ModuleName w.jobNamespace JobStatus.Failed,
          Event.post w.statusServerAddress
            ("Module " ++ jobConfig.ModuleName ++ " in scenario " ++ w.scenarioName ++
              " failed")] ∧
      ((loopBody w i jobConfig start hooks q).control = Control.halt (Outcome.exit 1) ∨
        (loopBody w i jobConfig start hooks q).control = Control.halt Outcome.panicked) ∧
      (healthy w → (loopBody w i jobConfig start hooks q).control =
        Control.halt (Outcome.exit 1))) := by
  unfold loopBody
  simp only
  cases hl : logWebhook (SendWebHook (w.postResp hooks)).1 (SendWebHook (w.postResp hooks)).2 with
  | none =>
    cases hst : (getJobStatus q).1 <;> cases start <;> simp
  | some o =>
    have ho := logWebhook_some _ _ _ hl
    subst ho
    have hnh : ¬ healthy w := fun hw => by
      rw [logWebhook_healthy w hw hooks] at hl
      simp at hl
    cases hst : (getJobStatus q).1 <;> cases start <;> simp [hnh]

theorem pollLoop_cons_again (w : World) (i : Nat) (jobConfig : CascadeScenarios) (start : Bool)
    (hooks : Nat) (q : Except String JobCounters) (qs : List (Except String JobCounters))
    (start1 : Bool)
    (h : (loopBody w i jobConfig start hooks q).control = Control.again start1) :
    pollLoop w i jobConfig start hooks (q :: qs) =
      ((loopBody w i jobConfig start hooks q).events ++
          (pollLoop w i jobConfig start1 (loopBody w i jobConfig start hooks q).hooks qs).1,
        (pollLoop w i jobConfig start1 (loopBody w i jobConfig start hooks q).hooks qs).2) := by
  rw [pollLoop]
  simp only [h]

theorem pollLoop_cons_brk (w : World) (i : Nat) (jobConfig : CascadeScenarios) (start : Bool)
    (hooks : Nat) (q : Except String JobCounters) (qs : List (Except String JobCounters))
    (h : (loopBody w i jobConfig start hooks q).control = Control.brk) :
    pollLoop w i jobConfig start hooks (q :: qs) =
      ((loopBody w i jobConfig start hooks q).events,
        LoopExit.brk (loopBody w i jobConfig start hooks q).hooks qs) := by
  rw [pollLoop]
  simp only [h]

theorem pollLoop_cons_halt (w : World) (i : Nat) (jobConfig : CascadeScenarios) (start : Bool)
    (hooks : Nat) (q : Except String JobCounters) (qs : List (Except String JobCounters))
    (o : Outcome)
    (h : (loopBody w i jobConfig start hooks q).control = Control.halt o) :
    pollLoop w i jobConfig start hooks (q :: qs) =
      ((loopBody w i jobConfig start hooks q).events, LoopExit.halt o) := by
  rw [pollLoop]
  simp only [h]

theorem pollLoop_stage (w : World) (i : Nat) (jobConfig : CascadeScenarios) :
    ∀ (polls : List (Except String JobCounters)) (start : Bool) (hooks : Nat),
      ∀ e ∈ (pollLoop w i jobConfig start hooks polls).1,
        (∃ st, e = Event.get i jobConfig.ModuleName w.jobNamespace st) ∨
        e = Event.delete i jobConfig.ModuleName w.jobNamespace ∨
        ∃ msg, e = Event.post w.statusServerAddress msg := by
  intro polls
  induction polls with
  | nil => intro start hooks e he; simp [pollLoop] at he
  | cons q qs ih =>
    intro start hooks e he
    have hev : ∀ e ∈ (loopBody w i jobConfig start hooks q).events,
        (∃ st, e = Event.get i jobConfig.ModuleName w.jobNamespace st) ∨
        e = Event.delete i jobConfig.ModuleName w.jobNamespace ∨
        ∃ msg, e = Event.post w.statusServerAddress msg := by
      intro e he
      rcases loopBody_cases w i jobConfig start hooks q with
        ⟨_, _, hev, _⟩ | ⟨_, hb | ⟨_, hev⟩⟩ | ⟨_, hev, _⟩
      · rw [hev] at he; simp at he; exact Or.inl ⟨_, he⟩
      · rw [(loopBody_brk w i jobConfig start hooks q hb).2] at he
        simp only [List.mem_cons, List.mem_singleton, List.not_mem_nil, or_false] at he
        rcases he with rfl | rfl | rfl
        · exact Or.inl ⟨_, rfl⟩
        · exact Or.inr (Or.inr ⟨_, rfl⟩)
        · exact Or.inr (Or.inl rfl)
      · rw [hev] at he
        simp only [List.mem_cons, List.mem_singleton, List.not_mem_nil, or_false] at he
        rcases he with rfl | rfl
        · exact Or.inl ⟨_, rfl⟩
        · exact Or.inr (Or.inr ⟨_, rfl⟩)
      · rw [hev] at he
        simp only [List.mem_cons, List.mem_singleton, List.not_mem_nil, or_false] at he
        rcases he with rfl | rfl
        · exact Or.inl ⟨_, rfl⟩
        · exact Or.inr (Or.inr ⟨_, rfl⟩)
    cases hc : (loopBody w i jobConfig start hooks q).control with
    | again start1 =>
      rw [pollLoop_cons_again w i jobConfig start hooks q qs start1 hc] at he
      simp only [List.mem_append] at he
      rcases he with he | he
      · exact hev e he
      · exact ih start1 _ e he
    | brk =>
      rw [pollLoop_cons_brk w i jobConfig start hooks q qs hc] at he
      exact hev e he
    | halt o =>
      rw [pollLoop_cons_halt w i jobConfig start hooks q qs o hc] at he
      exact hev e he

theorem pollLoop_failed (w : World) (i : Nat) (jobConfig : CascadeScenarios) :
    ∀ (polls : List (Except String JobCounters)) (start : Bool) (hooks : Nat)
      (k : Nat) (nm ns : String),
      Event.get k nm ns JobStatus.Failed ∈ (pollLoop w i jobConfig start hooks polls).1 →
      ∃ o, (pollLoop w i jobConfig start hooks polls).2 = LoopExit.halt o ∧
        (o = Outcome.exit 1 ∨ o = Outcome.panicked) ∧ (healthy w → o = Outcome.exit 1) ∧
        ∀ j nm1 ns1, Event.delete j nm1 ns1 ∉ (pollLoop w i jobConfig start hooks polls).1 := by
  intro polls
  induction polls with
  | nil => intro start hooks k nm ns he; simp [pollLoop] at he
  | cons q qs ih =>
    intro start hooks k nm ns he
    rcases loopBody_cases w i jobConfig start hooks q with
      ⟨_, hnf, hev, start1, hc⟩ | ⟨hs, hb | ⟨hc, hev⟩⟩ | ⟨_, hev, hc, hh⟩
    · rw [pollLoop_cons_again w i jobConfig start hooks q qs start1 hc] at he ⊢
      simp only [hev, List.mem_append, List.mem_singleton, Event.get.injEq] at he ⊢
      rcases he with he | he
      · exact absurd he.2.2.2.symm hnf
      · obtain ⟨o, ho, h1, h2, h3⟩ := ih start1 _ k nm ns he
        refine ⟨o, ho, h1, h2, ?_⟩
        intro j nm1 ns1 hm
        rcases hm with hm | hm
        · simp at hm
        · exact h3 j nm1 ns1 hm
    · rw [pollLoop_cons_brk w i jobConfig start hooks q qs hb,
        (loopBody_brk w i jobConfig start hooks q hb).2] at he
      simp at he
    · rw [pollLoop_cons_halt w i jobConfig start hooks q qs _ hc, hev] at he
      simp at he
    · have hmem : ∀ j nm1 ns1, Event.delete j nm1 ns1 ∉
          (loopBody w i jobConfig start hooks q).events := by
        intro j nm1 ns1 hm
        rw [hev] at hm
        simp at hm
      rcases hc with hc | hc
      · rw [pollLoop_cons_halt w i jobConfig start hooks q qs _ hc]
        exact ⟨_, rfl, Or.inl rfl, fun _ => rfl, hmem⟩
      · rw [pollLoop_cons_halt w i jobConfig start hooks q qs _ hc]
        refine ⟨_, rfl, Or.inr rfl, fun hw => ?_, hmem⟩
        rw [hh hw] at hc
        simp at hc

theorem stageLoop_failed (w : World) (n : Nat) :
    ∀ (stages : List CascadeScenarios) (i : Nat) (s3 : s3PackagePath) (hooks : Nat)
      (polls : List (Except String JobCounters)) (k : Nat) (nm ns : String),
      Event.get k nm ns JobStatus.Failed ∈ (stageLoop w n stages i s3 hooks polls).trace →
      i ≤ k ∧
      (∀ j job, Event.create j job ∈ (stageLoop w n stages i s3 hooks polls).trace → j ≤ k) ∧
      (∀ nm1 ns1, Event.delete k nm1 ns1 ∉ (stageLoop w n stages i s3 hooks polls).trace) ∧
      ((stageLoop w n stages i s3 hooks polls).outcome = some (Outcome.exit 1) ∨
        (stageLoop w n stages i s3 hooks polls).outcome = some Outcome.panicked) ∧
      (healthy w → (stageLoop w n stages i s3 hooks polls).outcome = some (Outcome.exit 1)) := by
  intro stages
  induction stages with
  | nil =>
    intro i s3 hooks polls k nm ns he
    rw [stageLoop, finish_trace] at he
    simp at he
  | cons cfg rest ih =>
    intro i s3 hooks polls k nm ns he
    have hnc : ∀ j job, Event.create j job ∉ (pollLoop w i cfg true hooks polls).1 := by
      intro j job hm
      have := pollLoop_not_create w i cfg polls true hooks _ hm
      simp [Event.isCreate] at this
    have hki : Event.get k nm ns JobStatus.Failed ∈ (pollLoop w i cfg true hooks polls).1 →
        k = i := by
      intro hm
      rcases pollLoop_stage w i cfg polls true hooks _ hm with ⟨st, h⟩ | h | ⟨msg, h⟩
      · simp only [Event.get.injEq] at h; exact h.1
      · simp at h
      · simp at h
    rcases stageLoop_cons w n cfg rest i s3 hooks polls with
      ⟨_, hR⟩ | ⟨tpl, hs, hR | ⟨hp, hR⟩ | ⟨o, hp, hR⟩ | ⟨hooks1, polls1, hp, hR⟩⟩
    · rw [hR] at he; simp at he
    · rw [hR] at he; simp at he
    · rw [hR] at he
      simp only [List.mem_append, List.mem_singleton] at he
      rcases he with he | he
      · simp at he
      · obtain ⟨o, ho, _⟩ := pollLoop_failed w i cfg polls true hooks k nm ns he
        rw [hp] at ho
        simp at ho
    · rw [hR] at he ⊢
      simp only [List.mem_append, List.mem_singleton] at he ⊢
      rcases he with he | he
      · simp at he
      · obtain ⟨o1, ho1, h1, h2, h3⟩ := pollLoop_failed w i cfg polls true hooks k nm ns he
        rw [hp] at ho1
        simp only [LoopExit.halt.injEq] at ho1
        subst ho1
        have hk := hki he
        subst hk
        refine ⟨le_refl _, ?_, ?_, ?_, ?_⟩
        · intro j job hm
          rcases hm with hm | hm
          · simp only [Event.create.injEq] at hm; exact le_of_eq hm.1
          · exact absurd hm (hnc j job)
        · intro nm1 ns1 hm
          rcases hm with hm | hm
          · simp at hm
          · exact h3 _ nm1 ns1 hm
        · rcases h1 with h1 | h1 <;> simp [h1]
        · intro hw; simp [h2 hw]
    · rw [hR] at he ⊢
      simp only [List.mem_append, List.mem_singleton] at he ⊢
      rcases he with (he | he) | he
      · simp at he
      · obtain ⟨o, ho, _⟩ := pollLoop_failed w i cfg polls true hooks k nm ns he
        rw [hp] at ho
        simp at ho
      · obtain ⟨hle, hcr, hdel, hout, hhl⟩ :=
          ih (i + 1) (updatePath n cfg i s3) hooks1 polls1 k nm ns he
        refine ⟨by omega, ?_, ?_, hout, hhl⟩
        · intro j job hm
          rcases hm with (hm | hm) | hm
          · simp only [Event.create.injEq] at hm; omega
          · exact absurd hm (hnc j job)
          · exact hcr j job hm
        · intro nm1 ns1 hm
          rcases hm with (hm | hm) | hm
          · simp at hm
          · rcases pollLoop_stage w i cfg polls true hooks _ hm with ⟨st, h⟩ | h | ⟨msg, h⟩
            · simp at h
            · simp only [Event.delete.injEq] at h; omega
            · simp at h
          · exact hdel nm1 ns1 hm

/-- In every run, once a status query is classified `Failed` for stage `k`, no
job is submitted for a later stage, the job of stage `k` is not deleted, and
the process ends: with exit code 1 when the failure webhook is answered 200 or
fails in transport, in a run-time panic otherwise. -/
theorem failed_poll_ends_run (w : World) (stages : List CascadeScenarios)
    (polls : List (Except String JobCounters)) (k : Nat) (nm ns : String)
    (h : Event.get k nm ns JobStatus.Failed ∈ (main w stages polls).trace) :
    (∀ j job, Event.create j job ∈ (main w stages polls).trace → j ≤ k) ∧
      (∀ nm1 ns1, Event.delete k nm1 ns1 ∉ (main w stages polls).trace) ∧
      ((main w stages polls).outcome = some (Outcome.exit 1) ∨
        (main w stages polls).outcome = some Outcome.panicked) ∧
      (healthy w → (main w stages polls).outcome = some (Outcome.exit 1)) :=
  (stageLoop_failed w stages.length stages 0 ⟨0, "", false⟩ 0 polls k nm ns h).2

/-! ## Runs in which every stage succeeds -/

theorem loopBody_succeeded_healthy (w : World) (hw : healthy w) (i : Nat)
    (jobConfig : CascadeScenarios) (start : Bool) (hooks : Nat) (q : Except String JobCounters)
    (hst : (getJobStatus q).1 = JobStatus.Succeeded) :
    loopBody w i jobConfig start hooks q =
      ⟨[Event.get i jobConfig.ModuleName w.jobNamespace JobStatus.Succeeded,
          Event.post w.statusServerAddress
            ("Module " ++ jobConfig.ModuleName ++ " in scenario " ++ w.scenarioName ++
              " finished successfully"),
          Event.delete i jobConfig.ModuleName w.jobNamespace],
        hooks + 1, Control.brk⟩ := by
  unfold loopBody
  simp [hst, logWebhook_healthy w hw hooks]

theorem loopBody_waiting (w : World) (i : Nat) (jobConfig : CascadeScenarios) (start : Bool)
    (hooks : Nat) (q : Except String JobCounters)
    (hs : (getJobStatus q).1 ≠ JobStatus.Succeeded) (hf : (getJobStatus q).1 ≠ JobStatus.Failed) :
    ∃ start1, loopBody w i jobConfig start hooks q =
      ⟨[Event.get i jobConfig.ModuleName w.jobNamespace (getJobStatus q).1], hooks,
        Control.again start1⟩ := by
  unfold loopBody
  simp only [hs, hf, if_false]
  split_ifs
  · exact ⟨false, rfl⟩
  · exact ⟨start, rfl⟩

theorem pollLoop_succeeds (w : World) (hw : healthy w) (i : Nat) (jobConfig : CascadeScenarios) :
    ∀ (polls : List (Except String JobCounters)) (start : Bool) (hooks m : Nat),
      eventuallySucceeded (m + 1) polls = true →
      ∃ pre polls1,
        pollLoop w i jobConfig start hooks polls =
          (pre ++ [Event.get i jobConfig.ModuleName w.jobNamespace JobStatus.Succeeded,
              Event.post w.statusServerAddress
                ("Module " ++ jobConfig.ModuleName ++ " in scenario " ++ w.scenarioName ++
                  " finished successfully"),
              Event.delete i jobConfig.ModuleName w.jobNamespace],
            LoopExit.brk (hooks + 1) polls1) ∧
        eventuallySucceeded m polls1 = true ∧
        ∀ e ∈ pre, ∃ st, e = Event.get i jobConfig.ModuleName w.jobNamespace st := by
  intro polls
  induction polls with
  | nil => intro start hooks m h; simp [eventuallySucceeded] at h
  | cons q qs ih =>
    intro start hooks m h
    rw [eventuallySucceeded] at h
    by_cases hs : (getJobStatus q).1 = JobStatus.Succeeded
    · rw [hs] at h
      simp only at h
      have hb := loopBody_succeeded_healthy w hw i jobConfig start hooks q hs
      refine ⟨[], qs, ?_, h, by simp⟩
      rw [pollLoop_cons_brk w i jobConfig start hooks q qs (by rw [hb]), hb]
      rfl
    · by_cases hf : (getJobStatus q).1 = JobStatus.Failed
      · rw [hf] at h
        simp at h
      · have h1 : eventuallySucceeded (m + 1) qs = true := by
          cases hst : (getJobStatus q).1 <;> simp_all
        obtain ⟨start1, hb⟩ := loopBody_waiting w i jobConfig start hooks q hs hf
        obtain ⟨pre, polls1, hp, he, hpre⟩ := ih start1 hooks m h1
        refine ⟨Event.get i jobConfig.ModuleName w.jobNamespace (getJobStatus q).1 :: pre,
          polls1, ?_, he, ?_⟩
        · rw [pollLoop_cons_again w i jobConfig start hooks q qs start1 (by rw [hb]), hb]
          simp only [hp]
          rfl
        · intro e hm
          simp only [List.mem_cons] at hm
          rcases hm with rfl | hm
          · exact ⟨_, rfl⟩
          · exact hpre e hm

theorem stageLoop_cons_brk (w : World) (n : Nat) (cfg : CascadeScenarios)
    (rest : List CascadeScenarios) (i : Nat) (s3 : s3PackagePath) (hooks : Nat)
    (polls : List (Except String JobCounters)) (tpl : PodTemplateSpec) (ev2 : List Event)
    (hooks1 : Nat) (polls1 : List (Except String JobCounters))
    (hs : setEnv cfg.Template (podEnv cfg (updatePath n cfg i s3)) = some tpl)
    (hc : w.createErr i = none)
    (hp : pollLoop w i cfg true hooks polls = (ev2, LoopExit.brk hooks1 polls1)) :
    stageLoop w n (cfg :: rest) i s3 hooks polls =
      ⟨[Event.create i (jobSpec w.jobNamespace cfg tpl)] ++ ev2 ++
          (stageLoop w n rest (i + 1) (updatePath n cfg i s3) hooks1 polls1).trace,
        (stageLoop w n rest (i + 1) (updatePath n cfg i s3) hooks1 polls1).outcome⟩ := by
  rw [stageLoop]
  simp only [launchK8sJob, hs, hc, hp]

theorem setEnv_some (t : PodTemplateSpec) (env : List EnvVar) (h : t.Spec.Containers ≠ []) :
    ∃ tpl, setEnv t env = some tpl := by
  unfold setEnv
  cases hcs : t.Spec.Containers with
  | nil => exact absurd hcs h
  | cons c cs => exact ⟨_, rfl⟩

theorem filterMap_gets (i : Nat) (nm ns : String) (pre : List Event)
    (h : ∀ e ∈ pre, ∃ st, e = Event.get i nm ns st) :
    pre.filterMap submitted = [] ∧ pre.filterMap deleted = [] ∧ pre.filterMap posted = [] := by
  induction pre with
  | nil => exact ⟨rfl, rfl, rfl⟩
  | cons e es ih =>
    obtain ⟨st, rfl⟩ := h e (by simp)
    obtain ⟨h1, h2, h3⟩ := ih (fun x hx => h x (by simp [hx]))
    simp [List.filterMap_cons, submitted, deleted, posted, h1, h2, h3]

theorem stageLoop_succeeds (w : World) (hw : healthy w) (hc : ∀ i, w.createErr i = none)
    (n : Nat) :
    ∀ (stages : List CascadeScenarios) (i : Nat) (s3 : s3PackagePath) (hooks : Nat)
      (polls : List (Except String JobCounters)) (seed : String),
      (∀ c ∈ stages, c.Template.Spec.Containers ≠ []) →
      (stages = [] → s3.path = seed) →
      (∀ c ∈ stages.head?, (if i = 0 then mapIndex c.Configuration "s3path" else s3.path) = seed) →
      eventuallySucceeded stages.length polls = true →
      (stageLoop w n stages i s3 hooks polls).outcome = some (Outcome.exit 0) ∧
      (stageLoop w n stages i s3 hooks polls).trace.filterMap submitted =
        (stages.enumFrom i).map (fun p => (p.1, p.2.ModuleName)) ∧
      (stageLoop w n stages i s3 hooks polls).trace.filterMap deleted =
        List.range' i stages.length ∧
      (stageLoop w n stages i s3 hooks polls).trace.filterMap posted =
        stages.map (fun c => "Module " ++ c.ModuleName ++ " in scenario " ++ w.scenarioName ++
          " finished successfully") ++
        ["Scenario " ++ w.scenarioName ++ " completed successfully. Package address - " ++
          ((Split seed ".tgz").headD "" ++ "-final" ++ ".tgz")] := by
  intro stages
  induction stages with
  | nil =>
    intro i s3 hooks polls seed _ hnil _ _
    refine ⟨?_, ?_, ?_, ?_⟩
    · rw [stageLoop, finish]
      simp only [logWebhook_healthy w hw hooks]
    · rw [stageLoop, finish_trace]; rfl
    · rw [stageLoop, finish_trace]; rfl
    · rw [stageLoop, finish_trace, resultS3path, hnil rfl]; rfl
  | cons cfg rest ih =>
    intro i s3 hooks polls seed ht _ hseed hp
    have hsd : (if i = 0 then mapIndex cfg.Configuration "s3path" else s3.path) = seed :=
      hseed cfg (by simp)
    obtain ⟨tpl, hs⟩ := setEnv_some cfg.Template (podEnv cfg (updatePath n cfg i s3))
      (ht cfg (by simp))
    obtain ⟨pre, polls1, hpl, hp1, hpre⟩ :=
      pollLoop_succeeds w hw i cfg polls true hooks rest.length (by simpa using hp)
    have hpath : (updatePath n cfg i s3).path = seed := by rw [updatePath_path, hsd]
    obtain ⟨h1, h2, h3, h4⟩ := ih (i + 1) (updatePath n cfg i s3) (hooks + 1) polls1 seed
      (fun c hm => ht c (by simp [hm])) (fun _ => hpath) (fun c _ => by simp [hpath]) hp1
    obtain ⟨g1, g2, g3⟩ := filterMap_gets i cfg.ModuleName w.jobNamespace pre hpre
    rw [stageLoop_cons_brk w n cfg rest i s3 hooks polls tpl _ _ _ hs (hc i) hpl]
    refine ⟨h1, ?_, ?_, ?_⟩
    · simp [List.filterMap_append, List.filterMap_cons, submitted, g1, h2, jobSpec,
        List.enumFrom_cons]
    · simp [List.filterMap_append, List.filterMap_cons, deleted, g2, h3, List.range'_succ]
    · simp [List.filterMap_append, List.filterMap_cons, posted, g3, h4]

theorem pollLoop_delete_after (w : World) (i : Nat) (jobConfig : CascadeScenarios) :
    ∀ (polls : List (Except String JobCounters)) (start : Bool) (hooks : Nat)
      (pre post : List Event) (k : Nat) (nm ns : String),
      (pollLoop w i jobConfig start hooks polls).1 = pre ++ Event.delete k nm ns :: post →
      Event.get k nm ns JobStatus.Succeeded ∈ pre := by
  intro polls
  induction polls with
  | nil =>
    intro start hooks pre post k nm ns h
    simp [pollLoop] at h
  | cons q qs ih =>
    intro start hooks pre post k nm ns h
    rcases loopBody_cases w i jobConfig start hooks q with
      ⟨_, _, hev, start1, hc⟩ | ⟨_, hb | ⟨hc, hev⟩⟩ | ⟨_, hev, hc, _⟩
    · rw [pollLoop_cons_again w i jobConfig start hooks q qs start1 hc, hev] at h
      obtain ⟨pre1, hpre, hrest⟩ := mem_split_right h (by simp)
      rw [hpre]
      exact List.mem_append_right _ (ih start1 _ pre1 post k nm ns hrest)
    · rw [pollLoop_cons_brk w i jobConfig start hooks q qs hb,
        (loopBody_brk w i jobConfig start hooks q hb).2] at h
      simp only at h
      match pre, h with
      | [], h => simp at h
      | [_], h => simp at h
      | [a, b], h =>
        simp only [List.cons_append, List.nil_append, List.cons.injEq, Event.delete.injEq] at h
        obtain ⟨rfl, rfl, ⟨rfl, rfl, rfl⟩, _⟩ := h
        simp
      | _ :: _ :: _ :: rest, h =>
        simp only [List.cons_append, List.cons.injEq] at h
        have := h.2.2.2
        simp at this
    · rw [pollLoop_cons_halt w i jobConfig start hooks q qs _ hc, hev] at h
      have hm : Event.delete k nm ns ∈ pre ++ Event.delete k nm ns :: post := by simp
      rw [← h] at hm
      simp at hm
    · have hm : Event.delete k nm ns ∈ pre ++ Event.delete k nm ns :: post := by simp
      rcases hc with hc | hc <;>
        rw [pollLoop_cons_halt w i jobConfig start hooks q qs _ hc, hev] at h <;>
        rw [← h] at hm <;> simp at hm

theorem stageLoop_delete_after (w : World) (n : Nat) :
    ∀ (stages : List CascadeScenarios) (i : Nat) (s3 : s3PackagePath) (hooks : Nat)
      (polls : List (Except String JobCounters)) (pre post : List Event) (k : Nat)
      (nm ns : String),
      (stageLoop w n stages i s3 hooks polls).trace = pre ++ Event.delete k nm ns :: post →
      Event.get k nm ns JobStatus.Succeeded ∈ pre := by
  intro stages
  induction stages with
  | nil =>
    intro i s3 hooks polls pre post k nm ns h
    rw [stageLoop, finish_trace] at h
    have hm : Event.delete k nm ns ∈ pre ++ Event.delete k nm ns :: post := by simp
    rw [← h] at hm
    simp at hm
  | cons cfg rest ih =>
    intro i s3 hooks polls pre post k nm ns h
    have hhead : ∀ (tpl : PodTemplateSpec) (tl : List Event),
        Event.create i (jobSpec w.jobNamespace cfg tpl) :: tl =
          pre ++ Event.delete k nm ns :: post →
        ∃ pre1, pre = Event.create i (jobSpec w.jobNamespace cfg tpl) :: pre1 ∧
          tl = pre1 ++ Event.delete k nm ns :: post := by
      intro tpl tl htl
      cases pre with
      | nil => simp at htl
      | cons x pre1 =>
        simp only [List.cons_append, List.cons.injEq] at htl
        exact ⟨pre1, by rw [htl.1], htl.2⟩
    have hm : Event.delete k nm ns ∈ (stageLoop w n (cfg :: rest) i s3 hooks polls).trace := by
      rw [h]; simp
    rcases stageLoop_cons w n cfg rest i s3 hooks polls with
      ⟨_, hR⟩ | ⟨tpl, hs, hR | ⟨_, hR⟩ | ⟨o, _, hR⟩ | ⟨hooks1, polls1, hbrk, hR⟩⟩
    · rw [hR] at hm; simp at hm
    · rw [hR] at hm; simp at hm
    · rw [hR] at h
      simp only [List.singleton_append] at h
      obtain ⟨pre1, hpre, htl⟩ := hhead tpl _ h
      rw [hpre]
      exact List.mem_cons_of_mem _ (pollLoop_delete_after w i cfg polls true hooks _ _ k nm ns htl)
    · rw [hR] at h
      simp only [List.singleton_append] at h
      obtain ⟨pre1, hpre, htl⟩ := hhead tpl _ h
      rw [hpre]
      exact List.mem_cons_of_mem _ (pollLoop_delete_after w i cfg polls true hooks _ _ k nm ns htl)
    · rw [hR] at h
      simp only [List.singleton_append, List.cons_append] at h
      obtain ⟨pre1, hpre, htl⟩ := hhead tpl _ h
      rw [hpre]
      apply List.mem_cons_of_mem
      rcases List.append_eq_append_iff.mp htl with ⟨a1, h1, h2⟩ | ⟨c1, h1, h2⟩
      · rw [h1]
        exact List.mem_append_right _
          (ih (i + 1) (updatePath n cfg i s3) hooks1 polls1 a1 post k nm ns h2)
      · cases c1 with
        | nil =>
          simp only [List.nil_append] at h2
          have := ih (i + 1) (updatePath n cfg i s3) hooks1 polls1 [] post k nm ns
            (by rw [← h2]; rfl)
          simp at this
        | cons x c2 =>
          simp only [List.cons_append, List.cons.injEq] at h2
          rw [← h2.1] at h1
          exact pollLoop_delete_after w i cfg polls true hooks _ _ k nm ns h1

/-! ## Runs with a status endpoint that never answers with another code than 200 -/

theorem loopBody_postResp (w : World) (postResp : Nat → Except String Nat) (hw : healthy w)
    (hw1 : healthy { w with postResp := postResp }) (i : Nat) (jobConfig : CascadeScenarios)
    (start : Bool) (hooks : Nat) (q : Except String JobCounters) :
    loopBody { w with postResp := postResp } i jobConfig start hooks q =
      loopBody w i jobConfig start hooks q := by
  have h0 := logWebhook_healthy w hw hooks
  have h1 := logWebhook_healthy _ hw1 hooks
  simp only at h1
  unfold loopBody
  simp only [h0, h1]

theorem pollLoop_postResp (w : World) (postResp : Nat → Except String Nat) (hw : healthy w)
    (hw1 : healthy { w with postResp := postResp }) (i : Nat) (jobConfig : CascadeScenarios) :
    ∀ (polls : List (Except String JobCounters)) (start : Bool) (hooks : Nat),
      pollLoop { w with postResp := postResp } i jobConfig start hooks polls =
        pollLoop w i jobConfig start hooks polls := by
  intro polls
  induction polls with
  | nil => intro start hooks; rfl
  | cons q qs ih =>
    intro start hooks
    rw [pollLoop, pollLoop]
    simp only [loopBody_postResp w postResp hw hw1, ih]

theorem stageLoop_postResp (w : World) (postResp : Nat → Except String Nat) (hw : healthy w)
    (hw1 : healthy { w with postResp := postResp }) (n : Nat) :
    ∀ (stages : List CascadeScenarios) (i : Nat) (s3 : s3PackagePath) (hooks : Nat)
      (polls : List (Except String JobCounters)),
      stageLoop { w with postResp := postResp } n stages i s3 hooks polls =
        stageLoop w n stages i s3 hooks polls := by
  intro stages
  induction stages with
  | nil =>
    intro i s3 hooks polls
    have h0 := logWebhook_healthy w hw hooks
    have h1 := logWebhook_healthy _ hw1 hooks
    simp only at h1
    rw [stageLoop, stageLoop, finish, finish]
    simp only [h0, h1]
  | cons cfg rest ih =>
    intro i s3 hooks polls
    rw [stageLoop, stageLoop]
    simp only [pollLoop_postResp w postResp hw hw1, ih]
    rfl

/-- When no webhook call is answered with a status code other than 200, the
answers do not matter: two runs that differ only in which webhook calls get
the answer 200 and which fail in transport make the same calls in the same
order and end the same way. -/
theorem healthy_webhooks_same_run (w : World) (postResp : Nat → Except String Nat)
    (hw : healthy w) (hw1 : healthy { w with postResp := postResp })
    (stages : List CascadeScenarios) (polls : List (Except String JobCounters)) :
    main { w with postResp := postResp } stages polls = main w stages polls :=
  stageLoop_postResp w postResp hw hw1 stages.length stages 0 ⟨0, "", false⟩ 0 polls

/-- When no webhook call is answered with a status code other than 200, every
job creation succeeds, every stage template has a container, and the status
answers make every stage succeed, the run exits with code 0 after submitting
every stage in list order, deleting every stage's job, and posting one success
message per stage followed by the single completion message with the final
artifact path. -/
theorem all_succeeded_healthy_run (w : World) (stages : List CascadeScenarios)
    (polls : List (Except String JobCounters))
    (hw : healthy w) (hc : ∀ i, w.createErr i = none)
    (ht : ∀ c ∈ stages, c.Template.Spec.Containers ≠ [])
    (hp : eventuallySucceeded stages.length polls = true) :
    (main w stages polls).outcome = some (Outcome.exit 0) ∧
      (main w stages polls).trace.filterMap submitted =
        stages.enum.map (fun p => (p.1, p.2.ModuleName)) ∧
      (main w stages polls).trace.filterMap deleted = List.range stages.length ∧
      (main w stages polls).trace.filterMap posted =
        stages.map (fun c => "Module " ++ c.ModuleName ++ " in scenario " ++ w.scenarioName ++
          " finished successfully") ++
        ["Scenario " ++ w.scenarioName ++ " completed successfully. Package address - " ++
          resultS3path ⟨stages.length - 1,
            (stages.head?.map (fun c => mapIndex c.Configuration "s3path")).getD "", true⟩] := by
  have h := stageLoop_succeeds w hw hc stages.length stages 0 ⟨0, "", false⟩ 0 polls
    ((stages.head?.map (fun c => mapIndex c.Configuration "s3path")).getD "") ht
    (fun hnil => by subst hnil; rfl)
    (fun c hm => by simp only [Option.mem_def] at hm; simp [hm]) hp
  refine ⟨h.1, h.2.1, ?_, h.2.2.2⟩
  rw [List.range_eq_range']
  exact h.2.2.1

/-- In every run a job is deleted only after a status query for it was
classified `Succeeded`, and the job of stage `k` has been deleted when the job
of stage `k + 1` is submitted. -/
theorem deleted_after_succeeded (w : World) (stages : List CascadeScenarios)
    (polls : List (Except String JobCounters)) :
    (∀ (pre post : List Event) (k : Nat) (nm ns : String),
        (main w stages polls).trace = pre ++ Event.delete k nm ns :: post →
        Event.get k nm ns JobStatus.Succeeded ∈ pre) ∧
      ∀ (pre post : List Event) (k : Nat) (job : Job),
        (main w stages polls).trace = pre ++ Event.create (k + 1) job :: post →
        ∃ cfg, stages[k]? = some cfg ∧ Event.delete k cfg.ModuleName w.jobNamespace ∈ pre := by
  refine ⟨?_, ?_⟩
  · intro pre post k nm ns h
    exact stageLoop_delete_after w stages.length stages 0 ⟨0, "", false⟩ 0 polls pre post k nm ns h
  · intro pre post k job h
    obtain ⟨_, hget⟩ :=
      stageLoop_order w stages.length stages 0 ⟨0, "", false⟩ 0 polls pre post (k + 1) job h
    obtain ⟨cfg, hc, _, hm⟩ := hget (Nat.succ_pos k)
    exact ⟨cfg, by simpa using hc, by simpa using hm⟩

/-- An instance of `failed_poll_ends_run`: in the example scenario with the
second stage failing, the run exits with code 1. -/
theorem failed_poll_ends_run_example :
    (main (exampleWorld (fun _ => .ok 200)) exampleScenario
      [succeededAnswer, activeAnswer, failedAnswer]).outcome = some (Outcome.exit 1) :=
  (failed_poll_ends_run (exampleWorld (fun _ => .ok 200)) exampleScenario
    [succeededAnswer, activeAnswer, failedAnswer] 1 "transform" "default" (by decide)).2.2.2
    (fun _ => Or.inl rfl)

/-- An instance of `all_succeeded_healthy_run`: the example scenario with every
stage succeeding and every webhook call failing in transport. -/
theorem all_succeeded_healthy_run_example :
    (main (exampleWorld (fun _ => .error "timeout")) exampleScenario
      [activeAnswer, succeededAnswer, .error "unavailable", succeededAnswer,
        succeededAnswer]).outcome = some (Outcome.exit 0) :=
  (all_succeeded_healthy_run (exampleWorld (fun _ => .error "timeout")) exampleScenario
    [activeAnswer, succeededAnswer, .error "unavailable", succeededAnswer, succeededAnswer]
    (fun _ => Or.inr ⟨"timeout", rfl⟩) (fun _ => rfl) (by decide) (by decide)).1

/-! ## The claims -/

/-- C1: on a successful status query `getJobStatus` returns no error and
classifies the counters with first match wins: all three zero gives
`notStarted`, otherwise a positive succeeded counter gives `Succeeded`,
otherwise a positive failed counter gives `Failed`, otherwise `Running`. So the
status is `Succeeded` exactly when the succeeded counter is positive, whatever
the failed and active counters are, and `Failed` exactly when the failed
counter is positive and the succeeded counter is not. -/
theorem getJobStatus_first_match (active succeeded failed : Int) :
    getJobStatus (.ok ⟨active, succeeded, failed⟩) =
        (if active = 0 ∧ succeeded = 0 ∧ failed = 0 then JobStatus.notStarted
          else if succeeded > 0 then JobStatus.Succeeded
          else if failed > 0 then JobStatus.Failed
          else JobStatus.Running, none) ∧
      ((getJobStatus (.ok ⟨active, succeeded, failed⟩)).1 = JobStatus.notStarted ↔
        active = 0 ∧ succeeded = 0 ∧ failed = 0) ∧
      ((getJobStatus (.ok ⟨active, succeeded, failed⟩)).1 = JobStatus.Succeeded ↔
        succeeded > 0) ∧
      ((getJobStatus (.ok ⟨active, succeeded, failed⟩)).1 = JobStatus.Failed ↔
        succeeded ≤ 0 ∧ failed > 0) ∧
      ((getJobStatus (.ok ⟨active, succeeded, failed⟩)).1 = JobStatus.Running ↔
        ¬ (active = 0 ∧ succeeded = 0 ∧ failed = 0) ∧ succeeded ≤ 0 ∧ failed ≤ 0) := by
  unfold getJobStatus
  simp only
  refine ⟨?_, ?_, ?_, ?_, ?_⟩
  · split_ifs <;> rfl
  · split_ifs with h1 h2 h3 <;> simp [h1]
  · split_ifs with h1 h2 h3 <;> simp <;> omega
  · split_ifs with h1 h2 h3 <;> simp <;> omega
  · split_ifs with h1 h2 h3 <;> simp <;> omega

/-- C10: a failed status query makes `getJobStatus` return `notStarted` together
with the error, and an iteration of the polling loop whose status answer is a
query error or is classified `notStarted` makes no call besides the query
itself (no webhook, no deletion, no submission), leaves the webhook count and
the `start` flag as they were, does not end the process, and is followed by a
poll of the same stage in the same state. -/
theorem notStarted_poll_changes_nothing (w : World) (i : Nat) (jobConfig : CascadeScenarios)
    (start : Bool) (hooks : Nat) (q : Except String JobCounters)
    (qs : List (Except String JobCounters))
    (h : (∃ err, q = .error err) ∨ getJobStatus q = (JobStatus.notStarted, none)) :
    (∀ err, q = .error err → getJobStatus q = (JobStatus.notStarted, some err)) ∧
      loopBody w i jobConfig start hooks q =
        ⟨[Event.get i jobConfig.ModuleName w.jobNamespace JobStatus.notStarted], hooks,
          Control.again start⟩ ∧
      pollLoop w i jobConfig start hooks (q :: qs) =
        (Event.get i jobConfig.ModuleName w.jobNamespace JobStatus.notStarted ::
            (pollLoop w i jobConfig start hooks qs).1,
          (pollLoop w i jobConfig start hooks qs).2) := by
  have hst : (getJobStatus q).1 = JobStatus.notStarted := by
    rcases h with ⟨err, rfl⟩ | h
    · rfl
    · rw [h]
  have hbody : loopBody w i jobConfig start hooks q =
      ⟨[Event.get i jobConfig.ModuleName w.jobNamespace JobStatus.notStarted], hooks,
        Control.again start⟩ := by
    unfold loopBody
    simp [hst]
  refine ⟨?_, hbody, ?_⟩
  · intro err he
    subst he
    rfl
  · rw [pollLoop]
    simp only [hbody]
    rfl

/-- C10, at a concrete input: a query error while polling stage 1 with the
`start` flag still set and two webhook calls made. -/
theorem notStarted_poll_changes_nothing_witness :
    loopBody (exampleWorld (fun _ => .ok 200)) 1 (exampleStage "transform" []) true 2
        (.error "connection refused") =
      ⟨[Event.get 1 "transform" "default" JobStatus.notStarted], 2, Control.again true⟩ ∧
    pollLoop (exampleWorld (fun _ => .ok 200)) 1 (exampleStage "transform" []) true 2
        [.error "connection refused", succeededAnswer] =
      (Event.get 1 "transform" "default" JobStatus.notStarted ::
          (pollLoop (exampleWorld (fun _ => .ok 200)) 1 (exampleStage "transform" []) true 2
            [succeededAnswer]).1,
        (pollLoop (exampleWorld (fun _ => .ok 200)) 1 (exampleStage "transform" []) true 2
            [succeededAnswer]).2) :=
  (notStarted_poll_changes_nothing (exampleWorld (fun _ => .ok 200)) 1
    (exampleStage "transform" []) true 2 (.error "connection refused") [succeededAnswer]
    (Or.inl ⟨"connection refused", rfl⟩)).2

/-- C8: in every run the job submissions, in the order they are made, are the
stages of an initial segment of the stage list, each submitted once, with
indices 0, 1, 2, ... and the stage's module name as job name; and whenever the
job of stage `k + 1` is submitted, a status query for stage `k` classified
`Succeeded` was made before. -/
theorem submissions_in_list_order (w : World) (stages : List CascadeScenarios)
    (polls : List (Except String JobCounters)) :
    (main w stages polls).trace.filterMap submitted <+:
        stages.enum.map (fun p => (p.1, p.2.ModuleName)) ∧
      ∀ (pre post : List Event) (k : Nat) (job : Job),
        (main w stages polls).trace = pre ++ Event.create (k + 1) job :: post →
        ∃ cfg, stages[k]? = some cfg ∧
          Event.get k cfg.ModuleName w.jobNamespace JobStatus.Succeeded ∈ pre := by
  refine ⟨?_, ?_⟩
  · exact stageLoop_submitted w stages.length stages 0 ⟨0, "", false⟩ 0 polls
  · intro pre post k job h
    obtain ⟨_, hget⟩ :=
      stageLoop_order w stages.length stages 0 ⟨0, "", false⟩ 0 polls pre post (k + 1) job h
    obtain ⟨cfg, hc, hm, _⟩ := hget (Nat.succ_pos k)
    exact ⟨cfg, by simpa using hc, by simpa using hm⟩

/-- C8, at a concrete input: in the example scenario with the first two stages
succeeding, all three stages are submitted in order, and the submission of
stage 1 comes after the `Succeeded` poll of stage 0. -/
theorem submissions_in_list_order_witness :
    (main (exampleWorld (fun _ => .ok 200)) exampleScenario
        [activeAnswer, succeededAnswer, succeededAnswer]).trace.filterMap submitted =
      [(0, "ingest"), (1, "transform"), (2, "export")] ∧
    ∃ cfg, exampleScenario[0]? = some cfg ∧
      Event.get 0 cfg.ModuleName "default" JobStatus.Succeeded ∈
        [Event.create 0 (exampleJob "ingest" [("s3path", "pkg.tgz")] [⟨"s3path", "pkg.tgz"⟩]),
          Event.get 0 "ingest" "default" JobStatus.Running,
          Event.get 0 "ingest" "default" JobStatus.Succeeded,
          Event.post "http://status:8000"
            "Module ingest in scenario Test-image-processing finished successfully",
          Event.delete 0 "ingest" "default"] :=
  ⟨by decide,
    (submissions_in_list_order (exampleWorld (fun _ => .ok 200)) exampleScenario
      [activeAnswer, succeededAnswer, succeededAnswer]).2 _
      [Event.get 1 "transform" "default" JobStatus.Succeeded,
        Event.post "http://status:8000"
          "Module transform in scenario Test-image-processing finished successfully",
        Event.delete 1 "transform" "default",
        Event.create 2 (exampleJob "export" []
          [⟨"s3path", "pkg-stage-2.tgz"⟩, ⟨"finalstage", "true"⟩])]
      0 (exampleJob "transform" [] [⟨"s3path", "pkg-stage-1.tgz"⟩]) (by decide)⟩

/-- C2, counterexample: with the seed path `run.tgz.d/pkg.tgz`, which ends with
`.tgz`, the artifact-path variable of stage 1 is `run-stage-1.tgz`: the seed is
cut at its first `.tgz`, not at its `.tgz` suffix, so the value is not
`run.tgz.d/pkg-stage-1.tgz`. -/
theorem stage_path_cut_at_first_tgz :
    mapIndex [("s3path", "run.tgz.d/pkg.tgz")] "s3path" = "run.tgz.d/pkg" ++ ".tgz" ∧
    Event.create 1
        (exampleJob "export" [] [⟨"s3path", "run-stage-1.tgz"⟩, ⟨"finalstage", "true"⟩]) ∈
      (main (exampleWorld (fun _ => .ok 200))
        [exampleStage "ingest" [("s3path", "run.tgz.d/pkg.tgz")], exampleStage "export" []]
        [succeededAnswer]).trace ∧
    jobEnv (exampleJob "export" [] [⟨"s3path", "run-stage-1.tgz"⟩, ⟨"finalstage", "true"⟩]) =
      some [⟨"s3path", "run-stage-1.tgz"⟩, ⟨"finalstage", "true"⟩] ∧
    "run-stage-1.tgz" ≠ "run.tgz.d/pkg" ++ "-stage-" ++ Itoa 1 ++ ".tgz" := by
  decide

/-- C2, amended: when the stage-0 seed path is `p ++ ".tgz"` and `.tgz` does not
occur in `p`, every job submitted for a stage `i > 0` has as environment list
the entries of that stage's configuration, followed by the variable `s3path`
with value `p ++ "-stage-" ++ i ++ ".tgz"` (`i` in decimal), followed on the
last stage by the final-stage marker; the value does not depend on the
configurations of the stages after stage 0. -/
theorem stage_env_artifact_path (w : World) (s0 : CascadeScenarios)
    (rest : List CascadeScenarios) (polls : List (Except String JobCounters)) (p : String)
    (i : Nat) (job : Job)
    (hseed : mapIndex s0.Configuration "s3path" = p ++ ".tgz")
    (honce : ¬ occursIn ".tgz" p)
    (hi : 0 < i)
    (hmem : Event.create i job ∈ (main w (s0 :: rest) polls).trace) :
    ∃ cfg, (s0 :: rest)[i]? = some cfg ∧
      jobEnv job = some
        (cfg.Configuration.map (fun kv => EnvVar.mk kv.1 kv.2) ++
          [EnvVar.mk "s3path" (p ++ "-stage-" ++ Itoa i ++ ".tgz")] ++
          (if i + 1 = (s0 :: rest).length then [EnvVar.mk "finalstage" "true"] else [])) := by
  obtain ⟨cfg, tpl, hget, hset, hjob⟩ :=
    main_create w (s0 :: rest) polls (p ++ ".tgz") i job
      (fun c hc => by simp only [List.head?_cons, Option.mem_def, Option.some.injEq] at hc
                      subst hc; exact hseed) hmem
  refine ⟨cfg, hget, ?_⟩
  rw [hjob, jobEnv_jobSpec _ _ _ _ hset, podEnv_eq]
  simp only [Split_tgz p honce, List.headD_cons, if_pos hi, decide_eq_true_eq]

/-- C2, amended, at the specification's example: seed `pkg.tgz` gives
`pkg-stage-1.tgz` for stage 1 and `pkg-stage-2.tgz` for stage 2. -/
theorem stage_env_artifact_path_witness :
    (∃ cfg, exampleScenario[1]? = some cfg ∧
      jobEnv (exampleJob "transform" [] [⟨"s3path", "pkg-stage-1.tgz"⟩]) = some
        (cfg.Configuration.map (fun kv => EnvVar.mk kv.1 kv.2) ++
          [EnvVar.mk "s3path" ("pkg" ++ "-stage-" ++ Itoa 1 ++ ".tgz")] ++
          (if 1 + 1 = exampleScenario.length then [EnvVar.mk "finalstage" "true"] else []))) ∧
    (∃ cfg, exampleScenario[2]? = some cfg ∧
      jobEnv (exampleJob "export" [] [⟨"s3path", "pkg-stage-2.tgz"⟩, ⟨"finalstage", "true"⟩]) =
        some
        (cfg.Configuration.map (fun kv => EnvVar.mk kv.1 kv.2) ++
          [EnvVar.mk "s3path" ("pkg" ++ "-stage-" ++ Itoa 2 ++ ".tgz")] ++
          (if 2 + 1 = exampleScenario.length then [EnvVar.mk "finalstage" "true"] else []))) :=
  ⟨stage_env_artifact_path (exampleWorld (fun _ => .ok 200))
      (exampleStage "ingest" [("s3path", "pkg.tgz")])
      [exampleStage "transform" [], exampleStage "export" []]
      [succeededAnswer, succeededAnswer, succeededAnswer] "pkg" 1
      (exampleJob "transform" [] [⟨"s3path", "pkg-stage-1.tgz"⟩])
      (by decide) (by decide) (by decide) (by decide),
    stage_env_artifact_path (exampleWorld (fun _ => .ok 200))
      (exampleStage "ingest" [("s3path", "pkg.tgz")])
      [exampleStage "transform" [], exampleStage "export" []]
      [succeededAnswer, succeededAnswer, succeededAnswer] "pkg" 2
      (exampleJob "export" [] [⟨"s3path", "pkg-stage-2.tgz"⟩, ⟨"finalstage", "true"⟩])
      (by decide) (by decide) (by decide) (by decide)⟩

/-- C3, counterexample: with the single-stage seed path `a.tgz.tgz`, which ends
with `.tgz`, the run succeeds and the final artifact path in the completion
message is `a-final.tgz`, not `a.tgz-final.tgz`. -/
theorem final_path_cut_at_first_tgz :
    mapIndex [("s3path", "a.tgz.tgz")] "s3path" = "a.tgz" ++ ".tgz" ∧
    main (exampleWorld (fun _ => .ok 200)) [exampleStage "ingest" [("s3path", "a.tgz.tgz")]]
        [succeededAnswer] =
      ⟨[Event.create 0 (exampleJob "ingest" [("s3path", "a.tgz.tgz")]
            [⟨"s3path", "a.tgz.tgz"⟩, ⟨"finalstage", "true"⟩]),
          Event.get 0 "ingest" "default" JobStatus.Succeeded,
          Event.post "http://status:8000"
            "Module ingest in scenario Test-image-processing finished successfully",
          Event.delete 0 "ingest" "default",
          Event.post "http://status:8000"
            ("Scenario Test-image-processing completed successfully. Package address - " ++
              "a-final.tgz")],
        some (Outcome.exit 0)⟩ ∧
    resultS3path ⟨0, "a.tgz.tgz", true⟩ = "a-final.tgz" ∧
    "a-final.tgz" ≠ "a.tgz" ++ "-final.tgz" := by
  decide

/-- C3, amended: when the stage-0 seed path is `p ++ ".tgz"` and `.tgz` does not
occur in `p`, the final artifact path computed from it is `p ++ "-final.tgz"`,
and every run over a non-empty stage list that ends with exit code 0 ends with
the completion webhook carrying that path, whatever the number of stages. -/
theorem final_artifact_path (w : World) (s0 : CascadeScenarios) (rest : List CascadeScenarios)
    (polls : List (Except String JobCounters)) (p : String)
    (hseed : mapIndex s0.Configuration "s3path" = p ++ ".tgz")
    (honce : ¬ occursIn ".tgz" p) :
    (∀ (stageNum : Nat) (isLastStage : Bool),
        resultS3path ⟨stageNum, mapIndex s0.Configuration "s3path", isLastStage⟩ =
          p ++ "-final.tgz") ∧
      ((main w (s0 :: rest) polls).outcome = some (Outcome.exit 0) →
        (main w (s0 :: rest) polls).trace.getLast? =
          some (Event.post w.statusServerAddress
            ("Scenario " ++ w.scenarioName ++ " completed successfully. Package address - " ++
              (p ++ "-final.tgz")))) := by
  have hfin : (Split (p ++ ".tgz") ".tgz").headD "" ++ "-final" ++ ".tgz" = p ++ "-final.tgz" := by
    rw [Split_tgz p honce, List.headD_cons, String.append_assoc]
    rfl
  refine ⟨?_, ?_⟩
  · intro stageNum isLastStage
    rw [resultS3path, hseed]
    exact hfin
  · intro hout
    have := stageLoop_exit0 w (s0 :: rest).length (s0 :: rest) 0 ⟨0, "", false⟩ 0 polls
      (p ++ ".tgz") (fun h => by simp at h)
      (fun c hc => by simp only [List.head?_cons, Option.mem_def, Option.some.injEq] at hc
                      subst hc; simpa using hseed) hout
    rw [hfin] at this
    exact this

/-- C3, amended, at the specification's example: seed `pkg.tgz` gives
`pkg-final.tgz`, and the run of the three-stage example in which every stage
succeeds exits with code 0 after the completion webhook carrying that path. -/
theorem final_artifact_path_witness :
    (main (exampleWorld (fun _ => .ok 200)) exampleScenario
        [succeededAnswer, succeededAnswer, succeededAnswer]).outcome = some (Outcome.exit 0) ∧
    resultS3path ⟨2, "pkg.tgz", true⟩ = "pkg" ++ "-final.tgz" ∧
    (main (exampleWorld (fun _ => .ok 200)) exampleScenario
        [succeededAnswer, succeededAnswer, succeededAnswer]).trace.getLast? =
      some (Event.post "http://status:8000"
        ("Scenario " ++ "Test-image-processing" ++
          " completed successfully. Package address - " ++ ("pkg" ++ "-final.tgz"))) :=
  ⟨by decide,
    (final_artifact_path (exampleWorld (fun _ => .ok 200))
      (exampleStage "ingest" [("s3path", "pkg.tgz")])
      [exampleStage "transform" [], exampleStage "export" []]
      [succeededAnswer, succeededAnswer, succeededAnswer] "pkg" (by decide) (by decide)).1 2 true,
    (final_artifact_path (exampleWorld (fun _ => .ok 200))
      (exampleStage "ingest" [("s3path", "pkg.tgz")])
      [exampleStage "transform" [], exampleStage "export" []]
      [succeededAnswer, succeededAnswer, succeededAnswer] "pkg" (by decide) (by decide)).2
      (by decide)⟩

/-- C4, counterexample: stage 0 of a two-stage scenario whose configuration has
the key `finalstage` is submitted with a variable named `finalstage` in its
environment list although it is not the last stage. -/
theorem finalstage_from_configuration :
    main (exampleWorld (fun _ => .ok 200))
        [exampleStage "ingest" [("finalstage", "no")], exampleStage "export" []] [] =
      ⟨[Event.create 0 (exampleJob "ingest" [("finalstage", "no")] [⟨"finalstage", "no"⟩])],
        none⟩ ∧
    jobEnv (exampleJob "ingest" [("finalstage", "no")] [⟨"finalstage", "no"⟩]) =
      some [⟨"finalstage", "no"⟩] ∧
    (0 : Nat) ≠ [exampleStage "ingest" [("finalstage", "no")], exampleStage "export" []].length - 1 := by
  decide

/-- C4, amended: every job submitted for the last stage has the final-stage
marker `finalstage` with value `true` as the last entry of its environment
list; and for a stage whose configuration has no key `finalstage`, the
environment list of its job has a variable named `finalstage` if and only if
the stage is the last one, and that variable has the value `true`. -/
theorem finalstage_marker (w : World) (stages : List CascadeScenarios)
    (polls : List (Except String JobCounters)) (i : Nat) (job : Job)
    (hmem : Event.create i job ∈ (main w stages polls).trace) :
    ∃ cfg env, stages[i]? = some cfg ∧ jobEnv job = some env ∧
      (i + 1 = stages.length → env.getLast? = some ⟨"finalstage", "true"⟩) ∧
      ((∀ kv ∈ cfg.Configuration, kv.1 ≠ "finalstage") →
        ((∃ e ∈ env, e.Name = "finalstage") ↔ i + 1 = stages.length) ∧
        ∀ e ∈ env, e.Name = "finalstage" → e.Value = "true") := by
  obtain ⟨cfg, tpl, hget, hset, hjob⟩ :=
    main_create w stages polls
      ((stages.head?.map (fun c => mapIndex c.Configuration "s3path")).getD "") i job
      (fun c hc => by simp only [Option.mem_def] at hc; simp [hc]) hmem
  refine ⟨cfg, _, hget, by rw [hjob]; exact jobEnv_jobSpec _ _ _ _ hset, ?_, ?_⟩
  · intro hlast
    rw [podEnv_eq]
    simp [hlast]
  · intro hkey
    rw [podEnv_eq]
    have hne : ("s3path" : String) ≠ "finalstage" := by decide
    by_cases hlast : i + 1 = stages.length
    · simp only [hlast, decide_True, if_true]
      refine ⟨⟨fun _ => trivial, fun _ => ⟨⟨"finalstage", "true"⟩, by simp, rfl⟩⟩, ?_⟩
      intro e he hn
      simp only [List.mem_append, List.mem_map, List.mem_singleton] at he
      rcases he with (⟨kv, hkv, rfl⟩ | he) | rfl
      · exact absurd hn (hkey kv hkv)
      · split_ifs at he
        · simp only [List.mem_singleton] at he
          subst he
          exact absurd hn hne
        · simp at he
      · rfl
    · simp only [hlast, decide_False, if_false, List.append_nil, Bool.false_eq_true]
      have hnone : ∀ e ∈ List.map (fun kv => EnvVar.mk kv.1 kv.2) cfg.Configuration ++
          (if i > 0 then
            [EnvVar.mk "s3path"
              ((Split ((stages.head?.map (fun c => mapIndex c.Configuration "s3path")).getD "")
                ".tgz").headD "" ++ "-stage-" ++ Itoa i ++ ".tgz")]
            else []), e.Name ≠ "finalstage" := by
        intro e he
        simp only [List.mem_append, List.mem_map] at he
        rcases he with ⟨kv, hkv, rfl⟩ | he
        · exact hkey kv hkv
        · split_ifs at he
          · simp only [List.mem_singleton] at he
            subst he
            exact hne
          · simp at he
      refine ⟨⟨fun ⟨e, he, hn⟩ => absurd hn (hnone e he), fun h => absurd h (by simp)⟩, ?_⟩
      intro e he hn
      exact absurd hn (hnone e he)

/-- C4, amended, at the specification's example: the job of stage 2, the last
one, ends its environment list with `finalstage=true`, and the job of stage 1
has no variable named `finalstage`. -/
theorem finalstage_marker_witness :
    (∃ cfg env, exampleScenario[1]? = some cfg ∧
      jobEnv (exampleJob "transform" [] [⟨"s3path", "pkg-stage-1.tgz"⟩]) = some env ∧
      (1 + 1 = exampleScenario.length → env.getLast? = some ⟨"finalstage", "true"⟩) ∧
      ((∀ kv ∈ cfg.Configuration, kv.1 ≠ "finalstage") →
        ((∃ e ∈ env, e.Name = "finalstage") ↔ 1 + 1 = exampleScenario.length) ∧
        ∀ e ∈ env, e.Name = "finalstage" → e.Value = "true")) ∧
    (∃ cfg env, exampleScenario[2]? = some cfg ∧
      jobEnv (exampleJob "export" [] [⟨"s3path", "pkg-stage-2.tgz"⟩, ⟨"finalstage", "true"⟩]) =
        some env ∧
      (2 + 1 = exampleScenario.length → env.getLast? = some ⟨"finalstage", "true"⟩) ∧
      ((∀ kv ∈ cfg.Configuration, kv.1 ≠ "finalstage") →
        ((∃ e ∈ env, e.Name = "finalstage") ↔ 2 + 1 = exampleScenario.length) ∧
        ∀ e ∈ env, e.Name = "finalstage" → e.Value = "true")) :=
  ⟨finalstage_marker (exampleWorld (fun _ => .ok 200)) exampleScenario
      [succeededAnswer, succeededAnswer, succeededAnswer] 1
      (exampleJob "transform" [] [⟨"s3path", "pkg-stage-1.tgz"⟩]) (by decide),
    finalstage_marker (exampleWorld (fun _ => .ok 200)) exampleScenario
      [succeededAnswer, succeededAnswer, succeededAnswer] 2
      (exampleJob "export" [] [⟨"s3path", "pkg-stage-2.tgz"⟩, ⟨"finalstage", "true"⟩])
      (by decide)⟩

/-- C9, counterexample: in a single-stage scenario stage 0 is also the last
stage, and its job is submitted with the final-stage marker after the entries
of its configuration. -/
theorem single_stage_env_has_marker :
    main (exampleWorld (fun _ => .ok 200)) [exampleStage "ingest" [("s3path", "pkg.tgz")]] [] =
      ⟨[Event.create 0 (exampleJob "ingest" [("s3path", "pkg.tgz")]
          [⟨"s3path", "pkg.tgz"⟩, ⟨"finalstage", "true"⟩])], none⟩ ∧
    jobEnv (exampleJob "ingest" [("s3path", "pkg.tgz")]
        [⟨"s3path", "pkg.tgz"⟩, ⟨"finalstage", "true"⟩]) ≠
      some ([("s3path", "pkg.tgz")].map (fun kv => EnvVar.mk kv.1 kv.2)) := by
  decide

/-- C9, amended: the environment list of every job submitted for stage 0
consists of the entries of stage 0's configuration, followed by the final-stage
marker when stage 0 is the only stage, and nothing else; no derived
artifact-path variable is appended for stage 0. With two or more stages it is
exactly the entries of stage 0's configuration. -/
theorem stage0_env (w : World) (s0 : CascadeScenarios) (rest : List CascadeScenarios)
    (polls : List (Except String JobCounters)) (job : Job)
    (hmem : Event.create 0 job ∈ (main w (s0 :: rest) polls).trace) :
    jobEnv job = some
        (s0.Configuration.map (fun kv => EnvVar.mk kv.1 kv.2) ++
          (if rest = [] then [EnvVar.mk "finalstage" "true"] else [])) ∧
      (rest ≠ [] → jobEnv job = some (s0.Configuration.map (fun kv => EnvVar.mk kv.1 kv.2))) := by
  obtain ⟨cfg, tpl, hget, hset, hjob⟩ :=
    main_create w (s0 :: rest) polls (mapIndex s0.Configuration "s3path") 0 job
      (fun c hc => by simp only [List.head?_cons, Option.mem_def, Option.some.injEq] at hc
                      subst hc; rfl) hmem
  simp only [List.getElem?_cons_zero, Option.some.injEq] at hget
  subst hget
  have henv := jobEnv_jobSpec w.jobNamespace s0 _ tpl hset
  rw [podEnv_eq] at henv
  rw [hjob, henv]
  cases rest with
  | nil => simp
  | cons c cs => simp

/-- C9, amended, at the specification's example: the job of stage 0 of the
three-stage example is submitted with exactly its configuration entry. -/
theorem stage0_env_witness :
    Event.create 0 (exampleJob "ingest" [("s3path", "pkg.tgz")] [⟨"s3path", "pkg.tgz"⟩]) ∈
      (main (exampleWorld (fun _ => .ok 200)) exampleScenario []).trace ∧
    jobEnv (exampleJob "ingest" [("s3path", "pkg.tgz")] [⟨"s3path", "pkg.tgz"⟩]) =
      some ([("s3path", "pkg.tgz")].map (fun kv => EnvVar.mk kv.1 kv.2)) :=
  ⟨by decide,
    (stage0_env (exampleWorld (fun _ => .ok 200))
      (exampleStage "ingest" [("s3path", "pkg.tgz")])
      [exampleStage "transform" [], exampleStage "export" []] []
      (exampleJob "ingest" [("s3path", "pkg.tgz")] [⟨"s3path", "pkg.tgz"⟩]) (by decide)).2
      (by decide)⟩

/-- C5, at the failing input: one stage whose first poll is classified `Failed`,
with the status endpoint answering the failure webhook with code 500. The
sequencer submits the job, polls, posts the failure message, and then the
process ends in a run-time panic (the nil `err.Error()` of the second logging
statement), not with `os.Exit(1)`. When the endpoint answers 200, or the post
fails in transport, the same run exits with code 1. -/
theorem failed_stage_non200_panics :
    main (exampleWorld (fun _ => .ok 500)) [exampleStage "ingest" [("s3path", "pkg.tgz")]]
        [failedAnswer] =
      ⟨[Event.create 0 (exampleJob "ingest" [("s3path", "pkg.tgz")]
            [⟨"s3path", "pkg.tgz"⟩, ⟨"finalstage", "true"⟩]),
          Event.get 0 "ingest" "default" JobStatus.Failed,
          Event.post "http://status:8000"
            "Module ingest in scenario Test-image-processing failed"],
        some Outcome.panicked⟩ ∧
    (main (exampleWorld (fun _ => .ok 200)) [exampleStage "ingest" [("s3path", "pkg.tgz")]]
        [failedAnswer]).outcome = some (Outcome.exit 1) ∧
    (main (exampleWorld (fun _ => .error "timeout"))
        [exampleStage "ingest" [("s3path", "pkg.tgz")]] [failedAnswer]).outcome =
      some (Outcome.exit 1) := by
  decide

/-- C6, at the failing input: two stages that both succeed. With every webhook
answered 200, or failing in transport, both jobs are submitted and deleted and
the process exits with code 0; with every webhook answered 500 only the first
job is submitted, no job is deleted, and the process ends in a run-time
panic. -/
theorem webhook_non200_changes_run :
    (main (exampleWorld (fun _ => .ok 200))
        [exampleStage "ingest" [("s3path", "pkg.tgz")], exampleStage "export" []]
        [succeededAnswer, succeededAnswer]).trace.filterMap submitted =
      [(0, "ingest"), (1, "export")] ∧
    (main (exampleWorld (fun _ => .ok 200))
        [exampleStage "ingest" [("s3path", "pkg.tgz")], exampleStage "export" []]
        [succeededAnswer, succeededAnswer]).trace.filterMap deleted = [0, 1] ∧
    (main (exampleWorld (fun _ => .ok 200))
        [exampleStage "ingest" [("s3path", "pkg.tgz")], exampleStage "export" []]
        [succeededAnswer, succeededAnswer]).outcome = some (Outcome.exit 0) ∧
    main (exampleWorld (fun _ => .error "timeout"))
        [exampleStage "ingest" [("s3path", "pkg.tgz")], exampleStage "export" []]
        [succeededAnswer, succeededAnswer] =
      main (exampleWorld (fun _ => .ok 200))
        [exampleStage "ingest" [("s3path", "pkg.tgz")], exampleStage "export" []]
        [succeededAnswer, succeededAnswer] ∧
    (main (exampleWorld (fun _ => .ok 500))
        [exampleStage "ingest" [("s3path", "pkg.tgz")], exampleStage "export" []]
        [succeededAnswer, succeededAnswer]).trace.filterMap submitted = [(0, "ingest")] ∧
    (main (exampleWorld (fun _ => .ok 500))
        [exampleStage "ingest" [("s3path", "pkg.tgz")], exampleStage "export" []]
        [succeededAnswer, succeededAnswer]).trace.filterMap deleted = [] ∧
    (main (exampleWorld (fun _ => .ok 500))
        [exampleStage "ingest" [("s3path", "pkg.tgz")], exampleStage "export" []]
        [succeededAnswer, succeededAnswer]).outcome = some Outcome.panicked := by
  decide

/-- C7, at the failing input: one stage that succeeds, with the per-module
webhook answered 200 and the scenario-completion webhook answered 503. The job
is deleted after its `Succeeded` poll and the completion webhook with the final
artifact path is sent, and then the process ends in a run-time panic instead
of exiting with code 0. When the per-module webhook is the one answered 503,
the job is not deleted and no completion webhook is sent either. -/
theorem all_succeeded_non200_panics :
    main (exampleWorld (fun k => if k = 0 then .ok 200 else .ok 503))
        [exampleStage "ingest" [("s3path", "pkg.tgz")]] [activeAnswer, succeededAnswer] =
      ⟨[Event.create 0 (exampleJob "ingest" [("s3path", "pkg.tgz")]
            [⟨"s3path", "pkg.tgz"⟩, ⟨"finalstage", "true"⟩]),
          Event.get 0 "ingest" "default" JobStatus.Running,
          Event.get 0 "ingest" "default" JobStatus.Succeeded,
          Event.post "http://status:8000"
            "Module ingest in scenario Test-image-processing finished successfully",
          Event.delete 0 "ingest" "default",
          Event.post "http://status:8000"
            "Scenario Test-image-processing completed successfully. Package address - pkg-final.tgz"],
        some Outcome.panicked⟩ ∧
    main (exampleWorld (fun _ => .ok 503))
        [exampleStage "ingest" [("s3path", "pkg.tgz")]] [activeAnswer, succeededAnswer] =
      ⟨[Event.create 0 (exampleJob "ingest" [("s3path", "pkg.tgz")]
            [⟨"s3path", "pkg.tgz"⟩, ⟨"finalstage", "true"⟩]),
          Event.get 0 "ingest" "default" JobStatus.Running,
          Event.get 0 "ingest" "default" JobStatus.Succeeded,
          Event.post "http://status:8000"
            "Module ingest in scenario Test-image-processing finished successfully"],
        some Outcome.panicked⟩ := by
  decide

end CascadeScenarioController
